import Mathlib

/-!
# TicRes — verification of the seat-reservation core

Shallow embedding of the TicRes backend's reservation, payment and
refund code paths. Persistent state (the PostgreSQL tables `seats`,
`booking`, `booking_items`, `transactions`, `refund`, `users`, `events`)
is modelled as explicit lists of rows inside a `DB` record; each Go
repository / usecase function becomes a pure Lean function from a `DB`
to a `DB` (plus a result). SQL `UPDATE ... WHERE` statements become
`List.map` with the row predicate, and their `RowsAffected` becomes the
length of the filtered list. Timestamps are natural numbers; monetary
amounts are integers (they are only ever copied, never computed with).
-/

namespace TicRes

/-- A row of the `seats` table (entity.Seat). -/
structure Seat where
  seatId : Nat
  eventId : Nat
  isBooked : Bool
  deriving Repr, DecidableEq

/-- A row of the `booking` table (entity.Booking). `expiresAt` is the
nullable `expires_at TIMESTAMP` column, `totalAmount` the nullable
`total_amount` column. -/
structure Booking where
  id : Nat
  userId : Nat
  eventId : Nat
  status : String
  totalAmount : Option Int
  expiresAt : Option Nat
  createdAt : Nat
  deriving Repr, DecidableEq

/-- A row of the `transactions` table (entity.Transaction). -/
structure Transaction where
  id : Nat
  amount : Option Int
  paymentMethod : String
  bookingId : Nat
  externalId : String
  status : String
  deriving Repr, DecidableEq

/-- A row of the `refund` table (entity.Refund). -/
structure Refund where
  id : Nat
  bookingId : Nat
  amount : Option Int
  reason : String
  status : String
  deriving Repr, DecidableEq

/-- A row of the `users` table (entity.User), restricted to the fields
the worker reads. -/
structure User where
  id : Nat
  email : String
  deriving Repr, DecidableEq

/-- A row of the `events` table (entity.Event), restricted to the
fields the status claims need. -/
structure Event where
  id : Nat
  status : String
  deriving Repr, DecidableEq

/-- The database state: one list of rows per table, plus the SERIAL
counters used for generated primary keys. -/
structure DB where
  seats : List Seat
  bookings : List Booking
  bookingItems : List (Nat × Nat)
  transactions : List Transaction
  refunds : List Refund
  users : List User
  events : List Event
  nextBookingId : Nat
  nextPaymentId : Nat
  nextRefundId : Nat
  deriving Repr, DecidableEq

/-! ## Inventory store: the per-seat claim step

`UPDATE seats SET is_booked = True WHERE seat_id = $1 AND is_booked = False`
from bookingRepository.CreateBooking. `lockSeatRowsAffected` is the
`RowsAffected` count of that statement, `lockSeatExec` its effect. -/

/-- Rows matched by the conditional seat-claim UPDATE. -/
def lockSeatRowsAffected (seats : List Seat) (sid : Nat) : Nat :=
  (seats.filter (fun s => s.seatId == sid && s.isBooked == false)).length

/-- Effect of the conditional seat-claim UPDATE on the `seats` table. -/
def lockSeatExec (seats : List Seat) (sid : Nat) : List Seat :=
  seats.map (fun s =>
    if s.seatId == sid && s.isBooked == false then { s with isBooked := true } else s)

/-- The seat-claim loop body of bookingRepository.CreateBooking: for
each requested seat id, execute the conditional UPDATE; if it affected
zero rows return the contention error (which makes the caller roll the
transaction back), otherwise insert the `booking_items` row and
continue on the updated transaction-local state. -/
def claimSeats (bookingID : Nat) : DB → List Nat → Except String DB
  | tx, [] => .ok tx
  | tx, sid :: rest =>
    if lockSeatRowsAffected tx.seats sid == 0 then
      .error "seat not available or already booked"
    else
      claimSeats bookingID
        { tx with
            seats := lockSeatExec tx.seats sid,
            bookingItems := tx.bookingItems ++ [(bookingID, sid)] }
        rest

/-- The transaction-local state right after CreateBooking's INSERT of
the booking header row — `INSERT INTO booking (user_id, event_id,
status, created_at) VALUES ($1, $2, 'PENDING', NOW())`, so
`total_amount` and `expires_at` stay NULL. -/
def bookingTx (db : DB) (now userID eventID : Nat) : DB :=
  { db with
      bookings := db.bookings ++
        [{ id := db.nextBookingId, userId := userID, eventId := eventID,
           status := "PENDING", totalAmount := none, expiresAt := none,
           createdAt := now }],
      nextBookingId := db.nextBookingId + 1 }

/-- bookingRepository.CreateBooking: inside one transaction, INSERT the
booking header row, then run the seat-claim loop; on any claim failure
the deferred Rollback discards the transaction, so the call returns the
error together with the unchanged database; otherwise the transaction
commits. Returns the committed database and the new booking id. -/
def CreateBooking (db : DB) (now userID eventID : Nat) (seatIDs : List Nat) :
    DB × Except String Nat :=
  match claimSeats db.nextBookingId (bookingTx db now userID eventID) seatIDs with
  | .error e => (db, .error e)
  | .ok tx' => (tx', .ok db.nextBookingId)

/-! ## Repository reads and writes shared by the payment and refund paths -/

/-- Modelled from the spec: `GetBookingByID` is not under src (only its
callers are); per the spec it is the plain ownership-checked row read
used by the Payment State Machine — fetch the `booking` row with the
given id, reporting not-found when no row matches. -/
def GetBookingByID (db : DB) (bid : Nat) : Option Booking :=
  db.bookings.find? (fun b => b.id == bid)

/-- transactionRepository.GetTransactionByBookingID:
`SELECT ... FROM transactions WHERE booking_id = $1`, returning nil on
no rows. -/
def GetTransactionByBookingID (db : DB) (bid : Nat) : Option Transaction :=
  db.transactions.find? (fun t => t.bookingId == bid)

/-- Row effect of the booking-status UPDATE on one `booking` row. -/
def applyBookingStatus (bid : Nat) (st : String) (b : Booking) : Booking :=
  if b.id == bid then { b with status := st } else b

/-- bookingRepository.UpdateBookingStatus:
`UPDATE booking SET status = $1 WHERE booking_id = $2`. -/
def UpdateBookingStatus (db : DB) (bid : Nat) (st : String) : DB :=
  { db with bookings := db.bookings.map (applyBookingStatus bid st) }

/-- Row effect of the transaction-status UPDATE on one `transactions`
row: the status is overwritten; `external_id` is kept when the argument
is empty (the `COALESCE(NULLIF(...))`); `payment_method` is always
passed as `''` by the code, hence always kept. -/
def applyTxnStatus (pid : Nat) (st extId : String) (t : Transaction) : Transaction :=
  if t.id == pid then
    { t with status := st,
             externalId := if extId == "" then t.externalId else extId }
  else t

/-- transactionRepository.UpdateTransactionStatus:
`UPDATE transactions SET status = $1, payment_method =
COALESCE(NULLIF($2,''), payment_method), external_id =
COALESCE(NULLIF($3,''), external_id) WHERE payment_id = $4`. -/
def UpdateTransactionStatus (db : DB) (pid : Nat) (st extId : String) : DB :=
  { db with transactions := db.transactions.map (applyTxnStatus pid st extId) }

/-- Row effect of the seat release on one `seats` row, given the
`booking_items` table and the booking id being released. -/
def applySeatRelease (items : List (Nat × Nat)) (bid : Nat) (s : Seat) : Seat :=
  if items.any (fun it => it.1 == bid && it.2 == s.seatId) then
    { s with isBooked := false }
  else s

/-- Modelled from the spec: `ReleaseSeatsByBookingID` is not under src
(only its callers are); per the spec §4.1, releasing unconditionally
marks a seat available again, applied to every seat the booking holds
through a `booking_items` row. -/
def ReleaseSeatsByBookingID (db : DB) (bid : Nat) : DB :=
  { db with seats := db.seats.map (applySeatRelease db.bookingItems bid) }

/-- transactionRepository.CreateTransaction:
`INSERT INTO transactions (amount, payment_method, booking_id,
external_id, status) VALUES ($1,$2,$3,$4,'PENDING')` with a generated
`TXN-...` external id; returns the inserted row. -/
def CreateTransaction (db : DB) (now : Nat) (amount : Option Int)
    (method : String) (bid : Nat) : DB × Transaction :=
  let t : Transaction :=
    { id := db.nextPaymentId, amount := amount, paymentMethod := method,
      bookingId := bid,
      externalId := "TXN-" ++ toString bid ++ "-" ++ toString now,
      status := "PENDING" }
  ({ db with transactions := db.transactions ++ [t],
             nextPaymentId := db.nextPaymentId + 1 }, t)

/-- refundRepository.CreateRefund:
`INSERT INTO refund (booking_id, amount, reason, status) VALUES
($1,$2,$3,'COMPLETED')`. -/
def CreateRefund (db : DB) (bid : Nat) (amount : Option Int) (reason : String) : DB :=
  { db with
      refunds := db.refunds ++
        [{ id := db.nextRefundId, bookingId := bid, amount := amount,
           reason := reason, status := "COMPLETED" }],
      nextRefundId := db.nextRefundId + 1 }

/-- userRepository.GetUserByID, as used by the worker: resolve the
booking's user row, failing when it does not exist. -/
def GetUserByID (db : DB) (uid : Nat) : Option User :=
  db.users.find? (fun u => u.id == uid)

/-! ## Payment state machine (paymentUsecase.ProcessPayment) -/

/-- The distinct errors ProcessPayment returns (entity.Err...). -/
inductive PayErr where
  | invalidPaymentMethod
  | notFound
  | unauthorized
  | paymentAlreadyMade
  | bookingNotPending
  | bookingExpired
  deriving Repr, DecidableEq

/-- The `validPaymentMethods` map of the payment usecase. -/
def methodCode (m : String) : Option String :=
  if m == "credit_card" then some "CR"
  else if m == "bank_transfer" then some "BT"
  else if m == "e_wallet" then some "EW"
  else none

/-- Result of ProcessPayment: the database it leaves behind together
with either the settled transaction or the error. -/
structure PayResult where
  db : DB
  out : Except PayErr Transaction
  deriving Repr

/-- Settlement tail of ProcessPayment, after all guards have passed:
generate the `PAY-...` gateway reference, set the transaction
COMPLETED, set the booking PAID, and return the locally mutated
transaction struct. -/
def settlePayment (db : DB) (now bookingID : Nat) (t : Transaction)
    (method code : String) : PayResult :=
  let externalID :=
    "PAY-" ++ code ++ "-" ++ toString bookingID ++ "-" ++ toString now
  let db1 := UpdateTransactionStatus db t.id "COMPLETED" externalID
  let db2 := UpdateBookingStatus db1 bookingID "PAID"
  ⟨db2, .ok { t with status := "COMPLETED", externalId := externalID,
                     paymentMethod := method }⟩

/-- paymentUsecase.ProcessPayment: validate the method, fetch the
booking, check ownership, check status (PAID and other non-PENDING
states are distinct errors), lazily enforce expiry when an `expires_at`
is stored and passed (marking the booking EXPIRED and releasing its
seats), guard against an already COMPLETED transaction, create the
transaction if absent, then settle. -/
def ProcessPayment (db : DB) (now bookingID userID : Nat) (method : String) :
    PayResult :=
  match methodCode method with
  | none => ⟨db, .error .invalidPaymentMethod⟩
  | some code =>
    match GetBookingByID db bookingID with
    | none => ⟨db, .error .notFound⟩
    | some booking =>
      if booking.userId ≠ userID then ⟨db, .error .unauthorized⟩
      else if booking.status ≠ "PENDING" then
        if booking.status = "PAID" then ⟨db, .error .paymentAlreadyMade⟩
        else ⟨db, .error .bookingNotPending⟩
      else if (booking.expiresAt.map (fun e => decide (e < now))).getD false then
        let db1 := UpdateBookingStatus db bookingID "EXPIRED"
        let db2 := ReleaseSeatsByBookingID db1 bookingID
        ⟨db2, .error .bookingExpired⟩
      else
        match GetTransactionByBookingID db bookingID with
        | some t =>
          if t.status = "COMPLETED" then ⟨db, .error .paymentAlreadyMade⟩
          else settlePayment db now bookingID t method code
        | none =>
          let (db1, t) := CreateTransaction db now booking.totalAmount method bookingID
          settlePayment db1 now bookingID t method code

/-! ## Cancellation/refund worker (NotificationWorker.processEventRefund) -/

/-- bookingRepository.GetBookingsByEventID:
`SELECT ... FROM booking WHERE event_id = $1 AND status IN
('PAID','PENDING')`. -/
def GetBookingsByEventID (db : DB) (eventID : Nat) : List Booking :=
  db.bookings.filter (fun b =>
    b.eventId == eventID && (b.status == "PAID" || b.status == "PENDING"))

/-- One iteration of the worker's refund loop, for the snapshot row
`b`: resolve the user (skipping the booking entirely when that fails);
for a PAID booking, mark its transaction REFUNDED and create the refund
record when a transaction exists, then set the booking REFUNDED and
release its seats; for a PENDING booking, cancel its transaction when
one exists, set the booking CANCELLED and release its seats. -/
def processBookingRefund (db : DB) (b : Booking) : DB :=
  match GetUserByID db b.userId with
  | none => db
  | some _ =>
    if b.status == "PAID" then
      let db1 :=
        match GetTransactionByBookingID db b.id with
        | some t =>
          let d := UpdateTransactionStatus db t.id "REFUNDED" ""
          CreateRefund d b.id t.amount "Event cancelled by administrator"
        | none => db
      let db2 := UpdateBookingStatus db1 b.id "REFUNDED"
      ReleaseSeatsByBookingID db2 b.id
    else if b.status == "PENDING" then
      let db1 :=
        match GetTransactionByBookingID db b.id with
        | some t => UpdateTransactionStatus db t.id "CANCELLED" ""
        | none => db
      let db2 := UpdateBookingStatus db1 b.id "CANCELLED"
      ReleaseSeatsByBookingID db2 b.id
    else db

/-- NotificationWorker.processEventRefund: fetch the PAID/PENDING
bookings of the event once, then process them one after the other. -/
def processEventRefund (db : DB) (eventID : Nat) : DB :=
  (GetBookingsByEventID db eventID).foldl processBookingRefund db

/-! ## Event status (eventRepository.UpdateEventStatus,
eventUsecase.CancelEvent) -/

/-- eventRepository.UpdateEventStatus:
`UPDATE events SET status = $1, updated_at = NOW() WHERE event_id = $2`
— an unconditional overwrite of the status column. -/
def UpdateEventStatus (events : List Event) (eventID : Nat) (st : String) :
    List Event :=
  events.map (fun e => if e.id == eventID then { e with status := st } else e)

/-- eventUsecase.CancelEvent, restricted to its effect on the `events`
table: it calls UpdateEventStatus with the literal 'CANCELLED' (then
enqueues the refund job). -/
def CancelEvent (events : List Event) (eventID : Nat) : List Event :=
  UpdateEventStatus events eventID "CANCELLED"

/-- A sequence of CancelEvent calls (the only operation in the
repository that ever writes an event status). -/
def runCancelEvents (events : List Event) : List Nat → List Event
  | [] => events
  | eid :: rest => runCancelEvents (CancelEvent events eid) rest

/-! ## Sequential runs of CreateBooking (for the per-seat exclusivity
claim): the database serializes the booking transactions, so any set of
CreateBooking calls is observed as some sequential order of them. -/

/-- One client request to CreateBooking. -/
structure BookReq where
  now : Nat
  userID : Nat
  eventID : Nat
  seatIDs : List Nat
  deriving Repr, DecidableEq

/-- Run a list of CreateBooking requests in order, recording which of
them succeeded. -/
def runBookings : DB → List BookReq → DB × List Bool
  | db, [] => (db, [])
  | db, r :: rs =>
    let step := CreateBooking db r.now r.userID r.eventID r.seatIDs
    let rec2 := runBookings step.1 rs
    (rec2.1, (match step.2 with | .ok _ => true | .error _ => false) :: rec2.2)

/-- How many of the requests both succeeded and asked for seat `sid`. -/
def successesClaiming (db : DB) (reqs : List BookReq) (sid : Nat) : Nat :=
  (((runBookings db reqs).2).zip reqs).countP
    (fun p => p.1 && p.2.seatIDs.contains sid)

/-- A small concrete database used to instantiate the theorems: event 7
with three seats of which seat 3 is already booked, one registered
user, no bookings yet. -/
def sampleDB : DB :=
  { seats := [⟨1, 7, false⟩, ⟨2, 7, false⟩, ⟨3, 7, true⟩],
    bookings := [], bookingItems := [], transactions := [], refunds := [],
    users := [⟨5, "user at example.com"⟩], events := [⟨7, "AVAILABLE"⟩],
    nextBookingId := 100, nextPaymentId := 200, nextRefundId := 300 }

/-- A concrete database holding one PENDING booking (id 100, user 5,
event 7, seats 1 and 2, stored deadline 15) with its PENDING
transaction. -/
def samplePendingDB : DB :=
  { seats := [⟨1, 7, true⟩, ⟨2, 7, true⟩, ⟨3, 7, false⟩],
    bookings := [⟨100, 5, 7, "PENDING", some 500, some 15, 10⟩],
    bookingItems := [(100, 1), (100, 2)],
    transactions := [⟨200, some 500, "credit_card", 100, "TXN-100-10", "PENDING"⟩],
    refunds := [],
    users := [⟨5, "user at example.com"⟩],
    events := [⟨7, "AVAILABLE"⟩],
    nextBookingId := 101, nextPaymentId := 201, nextRefundId := 300 }

/-- The same database after a completed payment: booking 100 PAID with
a COMPLETED transaction. -/
def samplePaidDB : DB :=
  { samplePendingDB with
      bookings := [⟨100, 5, 7, "PAID", some 500, some 15, 10⟩],
      transactions := [⟨200, some 500, "credit_card", 100, "PAY-CR-100-12", "COMPLETED"⟩] }

/-- The same database with booking 100 in the terminal EXPIRED state
while its stored deadline is also in the past. -/
def sampleExpiredDB : DB :=
  { samplePendingDB with
      bookings := [⟨100, 5, 7, "EXPIRED", some 500, some 15, 10⟩] }

/-- The same database with booking 100 PENDING and no stored deadline —
the state CreateBooking actually persists — so a payment settles. -/
def sampleActiveDB : DB :=
  { samplePendingDB with
      bookings := [⟨100, 5, 7, "PENDING", some 500, none, 10⟩] }

/-- A database where booking 100 is still PENDING although its
transaction is already COMPLETED: the duplicate-payment guard on the
transaction row must fire by itself. -/
def sampleGuardDB : DB :=
  { sampleActiveDB with
      transactions := [⟨200, some 500, "credit_card", 100, "PAY-CR-100-12", "COMPLETED"⟩] }

/-- A concrete database for the cancellation job: cancelled event 7
with a PAID booking 100 (user 5, seats 1-2, COMPLETED transaction of
500), a PENDING booking 101 (user 6, seat 3, no transaction), and a
PAID booking 102 whose user 99 does not exist (its transaction is 201).
No refunds yet. -/
def sampleRefundDB : DB :=
  { seats := [⟨1, 7, true⟩, ⟨2, 7, true⟩, ⟨3, 7, true⟩, ⟨4, 7, true⟩],
    bookings := [⟨100, 5, 7, "PAID", some 500, none, 10⟩,
                 ⟨101, 6, 7, "PENDING", some 200, none, 11⟩,
                 ⟨102, 99, 7, "PAID", some 300, none, 12⟩],
    bookingItems := [(100, 1), (100, 2), (101, 3), (102, 4)],
    transactions :=
      [⟨200, some 500, "credit_card", 100, "PAY-CR-100-12", "COMPLETED"⟩,
       ⟨201, some 300, "e_wallet", 102, "PAY-EW-102-13", "COMPLETED"⟩],
    refunds := [],
    users := [⟨5, "a at example.com"⟩, ⟨6, "b at example.com"⟩],
    events := [⟨7, "CANCELLED"⟩],
    nextBookingId := 103, nextPaymentId := 202, nextRefundId := 300 }

/-! ## Derived state predicates used by the theorems -/

/-- Every `seats` row with this id is marked booked. In a database
whose seat ids are unique this says: the seat is claimed. -/
def allBooked (seats : List Seat) (sid : Nat) : Prop :=
  ∀ s ∈ seats, s.seatId = sid → s.isBooked = true

/-- Seat ids are pairwise distinct (the `seats` primary key). -/
def seatIdsUnique (seats : List Seat) : Prop :=
  seats.Pairwise (fun a b => a.seatId ≠ b.seatId)

instance (seats : List Seat) (sid : Nat) : Decidable (allBooked seats sid) :=
  List.decidableBAll _ seats

instance (seats : List Seat) : Decidable (seatIdsUnique seats) :=
  inferInstanceAs (Decidable (seats.Pairwise fun a b : Seat => a.seatId ≠ b.seatId))

/-- Every `booking` row with this id carries this status. -/
def bookingStatusIs (db : DB) (bid : Nat) (st : String) : Prop :=
  ∀ b ∈ db.bookings, b.id = bid → b.status = st

/-- Every `transactions` row of this booking carries this status. -/
def txnStatusIs (db : DB) (bid : Nat) (st : String) : Prop :=
  ∀ t ∈ db.transactions, t.bookingId = bid → t.status = st

/-- The `refund` rows of this booking. -/
def refundsFor (db : DB) (bid : Nat) : List Refund :=
  db.refunds.filter (fun r => r.bookingId == bid)

/-- Every seat this booking holds through `booking_items` is available
again. -/
def seatsReleased (db : DB) (bid : Nat) : Prop :=
  ∀ s ∈ db.seats, (∃ it ∈ db.bookingItems, it.1 = bid ∧ it.2 = s.seatId) →
    s.isBooked = false

instance (db : DB) (bid : Nat) (st : String) : Decidable (bookingStatusIs db bid st) :=
  List.decidableBAll _ db.bookings

instance (db : DB) (bid : Nat) (st : String) : Decidable (txnStatusIs db bid st) :=
  List.decidableBAll _ db.transactions

instance (db : DB) (bid : Nat) : Decidable (seatsReleased db bid) :=
  List.decidableBAll _ db.seats

/-- Number of COMPLETED `transactions` rows of this booking. -/
def completedCount (db : DB) (bid : Nat) : Nat :=
  (db.transactions.filter
    (fun t => t.bookingId == bid && t.status == "COMPLETED")).length

/-- The schema's `booking_id UNIQUE` constraint on `transactions`,
restricted to one booking: it has at most one transaction row. -/
def TxnUniqueFor (db : DB) (bid : Nat) : Prop :=
  (db.transactions.filter (fun t => t.bookingId == bid)).length ≤ 1

instance (db : DB) (bid : Nat) : Decidable (TxnUniqueFor db bid) :=
  inferInstanceAs
    (Decidable ((db.transactions.filter (fun t => t.bookingId == bid)).length ≤ 1))

/-- The immutable identity of a `transactions` row: primary key,
booking and amount — everything the refund path copies but never
rewrites. -/
def txnKey (t : Transaction) : Nat × Nat × Option Int :=
  (t.id, t.bookingId, t.amount)

/-- The transaction keys of the whole table, in order. -/
def txnKeys (db : DB) : List (Nat × Nat × Option Int) :=
  db.transactions.map txnKey

/-! ## Lemmas about the per-seat claim step -/

theorem allBooked_lockSeatExec_self (seats : List Seat) (sid : Nat) :
    allBooked (lockSeatExec seats sid) sid := by
  intro s hs hid
  simp only [lockSeatExec, List.mem_map] at hs
  obtain ⟨s0, hs0, rfl⟩ := hs
  by_cases h : (s0.seatId == sid && s0.isBooked == false) = true
  · rw [if_pos h]
  · rw [if_neg h] at hid ⊢
    simp only [Bool.and_eq_true, beq_iff_eq, not_and] at h
    have := h hid
    simpa using this

theorem allBooked_lockSeatExec_mono {seats : List Seat} {sid : Nat}
    (h : allBooked seats sid) (sid' : Nat) :
    allBooked (lockSeatExec seats sid') sid := by
  intro s hs hid
  simp only [lockSeatExec, List.mem_map] at hs
  obtain ⟨s0, hs0, rfl⟩ := hs
  by_cases hc : (s0.seatId == sid' && s0.isBooked == false) = true
  · rw [if_pos hc]
  · rw [if_neg hc] at hid ⊢
    exact h s0 hs0 hid

theorem lockSeatRowsAffected_eq_zero_of_allBooked {seats : List Seat} {sid : Nat}
    (h : allBooked seats sid) :
    lockSeatRowsAffected seats sid = 0 := by
  simp only [lockSeatRowsAffected, List.length_eq_zero]
  apply List.filter_eq_nil_iff.mpr
  intro s hs
  simp only [Bool.and_eq_true, beq_iff_eq, not_and]
  intro hid
  simp [h s hs hid]

theorem lockSeatRowsAffected_ne_zero_iff (seats : List Seat) (sid : Nat) :
    lockSeatRowsAffected seats sid ≠ 0 ↔
      ∃ s ∈ seats, s.seatId = sid ∧ s.isBooked = false := by
  rw [lockSeatRowsAffected, ne_eq, List.length_eq_zero]
  constructor
  · intro h
    obtain ⟨s, hs⟩ := List.exists_mem_of_ne_nil _ h
    have hmem := List.mem_filter.mp hs
    refine ⟨s, hmem.1, ?_⟩
    have h2 := hmem.2
    simp only [Bool.and_eq_true, beq_iff_eq] at h2
    exact ⟨h2.1, by simpa using h2.2⟩
  · rintro ⟨s, hs, hid, hb⟩ hnil
    have hin : s ∈ seats.filter (fun s => s.seatId == sid && s.isBooked == false) :=
      List.mem_filter.mpr ⟨hs, by simp [hid, hb]⟩
    rw [hnil] at hin
    exact absurd hin (List.not_mem_nil s)

theorem lockSeatExec_eq_self_of_zero {seats : List Seat} {sid : Nat}
    (h : lockSeatRowsAffected seats sid = 0) :
    lockSeatExec seats sid = seats := by
  rw [lockSeatRowsAffected, List.length_eq_zero] at h
  have hall : ∀ s ∈ seats, (s.seatId == sid && s.isBooked == false) = false := by
    intro s hs
    by_contra hc
    have hin : s ∈ seats.filter (fun s => s.seatId == sid && s.isBooked == false) :=
      List.mem_filter.mpr ⟨hs, by simpa using hc⟩
    rw [h] at hin
    exact absurd hin (List.not_mem_nil s)
  rw [lockSeatExec]
  have : ∀ s ∈ seats,
      (if s.seatId == sid && s.isBooked == false then { s with isBooked := true } else s) = s := by
    intro s hs
    rw [if_neg (by rw [hall s hs]; simp)]
  exact (List.map_congr_left this).trans (List.map_id seats)

/-! ## Lemmas about the claim loop and CreateBooking -/

theorem claimSeats_ok_preserves_allBooked {bid sid : Nat} :
    ∀ (sids : List Nat) (tx tx' : DB), allBooked tx.seats sid →
      claimSeats bid tx sids = .ok tx' → allBooked tx'.seats sid := by
  intro sids
  induction sids with
  | nil =>
    intro tx tx' hb h
    simp only [claimSeats] at h
    cases h
    exact hb
  | cons a rest ih =>
    intro tx tx' hb h
    simp only [claimSeats] at h
    by_cases hz : (lockSeatRowsAffected tx.seats a == 0) = true
    · rw [if_pos hz] at h
      cases h
    · rw [if_neg hz] at h
      exact ih _ _ (allBooked_lockSeatExec_mono hb a) h

theorem claimSeats_ok_allBooked {bid : Nat} :
    ∀ (sids : List Nat) (tx tx' : DB), claimSeats bid tx sids = .ok tx' →
      ∀ sid ∈ sids, allBooked tx'.seats sid := by
  intro sids
  induction sids with
  | nil =>
    intro tx tx' _ sid hsid
    exact absurd hsid (List.not_mem_nil sid)
  | cons a rest ih =>
    intro tx tx' h sid hsid
    simp only [claimSeats] at h
    by_cases hz : (lockSeatRowsAffected tx.seats a == 0) = true
    · rw [if_pos hz] at h
      cases h
    · rw [if_neg hz] at h
      rcases List.mem_cons.mp hsid with rfl | hmem
      · exact claimSeats_ok_preserves_allBooked rest _ _
          (allBooked_lockSeatExec_self tx.seats sid) h
      · exact ih _ _ h sid hmem

theorem claimSeats_error_of_allBooked {bid sid : Nat} :
    ∀ (sids : List Nat) (tx : DB), sid ∈ sids → allBooked tx.seats sid →
      claimSeats bid tx sids = .error "seat not available or already booked" := by
  intro sids
  induction sids with
  | nil =>
    intro tx hsid _
    exact absurd hsid (List.not_mem_nil sid)
  | cons a rest ih =>
    intro tx hsid hb
    simp only [claimSeats]
    rcases List.mem_cons.mp hsid with rfl | hmem
    · rw [if_pos (by simp [lockSeatRowsAffected_eq_zero_of_allBooked hb])]
    · by_cases hz : (lockSeatRowsAffected tx.seats a == 0) = true
      · rw [if_pos hz]
      · rw [if_neg hz]
        exact ih _ hmem (allBooked_lockSeatExec_mono hb a)

theorem claimSeats_error_of_dup {bid : Nat} :
    ∀ (sids : List Nat) (tx : DB), ¬ sids.Nodup →
      claimSeats bid tx sids = .error "seat not available or already booked" := by
  intro sids
  induction sids with
  | nil =>
    intro tx hnd
    exact absurd List.nodup_nil hnd
  | cons a rest ih =>
    intro tx hnd
    rw [List.nodup_cons] at hnd
    rw [Classical.not_and_iff_or_not_not, Classical.not_not] at hnd
    simp only [claimSeats]
    by_cases hz : (lockSeatRowsAffected tx.seats a == 0) = true
    · rw [if_pos hz]
    · rw [if_neg hz]
      rcases hnd with hmem | hnd
      · exact claimSeats_error_of_allBooked rest _ hmem
          (allBooked_lockSeatExec_self tx.seats a)
      · exact ih _ hnd

theorem bookingTx_seats (db : DB) (now u ev : Nat) :
    (bookingTx db now u ev).seats = db.seats := rfl

theorem CreateBooking_preserves_allBooked {db : DB} {sid : Nat}
    (h : allBooked db.seats sid) (now u ev : Nat) (sids : List Nat) :
    allBooked (CreateBooking db now u ev sids).1.seats sid := by
  simp only [CreateBooking]
  cases hcall : claimSeats db.nextBookingId (bookingTx db now u ev) sids with
  | error e => exact h
  | ok tx' =>
    show allBooked tx'.seats sid
    exact claimSeats_ok_preserves_allBooked sids _ _ (by exact h) hcall

theorem CreateBooking_ok_allBooked {db : DB} {now u ev : Nat} {sids : List Nat} {sid bidv : Nat}
    (h : (CreateBooking db now u ev sids).2 = .ok bidv) (hmem : sid ∈ sids) :
    allBooked (CreateBooking db now u ev sids).1.seats sid := by
  simp only [CreateBooking] at h ⊢
  cases hcall : claimSeats db.nextBookingId (bookingTx db now u ev) sids with
  | error e => rw [hcall] at h; cases h
  | ok tx' =>
    show allBooked tx'.seats sid
    exact claimSeats_ok_allBooked sids _ _ hcall sid hmem

theorem CreateBooking_eq_error_of_allBooked {db : DB} {sid : Nat} {sids : List Nat}
    (hmem : sid ∈ sids) (hb : allBooked db.seats sid) (now u ev : Nat) :
    CreateBooking db now u ev sids =
      (db, .error "seat not available or already booked") := by
  have herr := @claimSeats_error_of_allBooked db.nextBookingId sid sids
    (bookingTx db now u ev) hmem (by exact hb)
  simp only [CreateBooking, herr]

theorem allBooked_of_unique_booked {seats : List Seat} {sid : Nat}
    (hu : seatIdsUnique seats) {s : Seat} (hs : s ∈ seats) (hid : s.seatId = sid)
    (hb : s.isBooked = true) : allBooked seats sid := by
  intro s' hs' hid'
  by_cases he : s' = s
  · rw [he]; exact hb
  · have hsymm : Symmetric (fun a b : Seat => a.seatId ≠ b.seatId) :=
      fun a b h hba => h hba.symm
    have := List.Pairwise.forall hsymm hu hs' hs he
    exact absurd (hid'.trans hid.symm) this

/-! ## Lemmas about sequential runs of CreateBooking -/

theorem successesClaiming_nil (db : DB) (sid : Nat) :
    successesClaiming db [] sid = 0 := rfl

theorem successesClaiming_cons (db : DB) (r : BookReq) (rs : List BookReq) (sid : Nat) :
    successesClaiming db (r :: rs) sid =
      successesClaiming (CreateBooking db r.now r.userID r.eventID r.seatIDs).1 rs sid +
        (if ((match (CreateBooking db r.now r.userID r.eventID r.seatIDs).2 with
              | .ok _ => true
              | .error _ => false) && r.seatIDs.contains sid) = true then 1 else 0) := by
  simp only [successesClaiming, runBookings, List.zip_cons_cons, List.countP_cons]

theorem successesClaiming_eq_zero_of_allBooked {sid : Nat} :
    ∀ (reqs : List BookReq) (db : DB), allBooked db.seats sid →
      successesClaiming db reqs sid = 0 := by
  intro reqs
  induction reqs with
  | nil => intro db _; rfl
  | cons r rs ih =>
    intro db hb
    rw [successesClaiming_cons,
      ih _ (CreateBooking_preserves_allBooked hb r.now r.userID r.eventID r.seatIDs)]
    by_cases hc : r.seatIDs.contains sid = true
    · have hmem : sid ∈ r.seatIDs := by simpa using hc
      rw [CreateBooking_eq_error_of_allBooked hmem hb r.now r.userID r.eventID]
      simp
    · have hcf : r.seatIDs.contains sid = false := by simpa using hc
      simp only [hcf, Bool.and_false, if_neg, Nat.add_zero]
      simp

theorem successesClaiming_le_one (sid : Nat) :
    ∀ (reqs : List BookReq) (db : DB), successesClaiming db reqs sid ≤ 1 := by
  intro reqs
  induction reqs with
  | nil => intro db; simp [successesClaiming_nil]
  | cons r rs ih =>
    intro db
    rw [successesClaiming_cons]
    by_cases hc : r.seatIDs.contains sid = true
    · cases hres : (CreateBooking db r.now r.userID r.eventID r.seatIDs).2 with
      | error e =>
        simpa using ih _
      | ok bidv =>
        have hmem : sid ∈ r.seatIDs := by simpa using hc
        have hpost := CreateBooking_ok_allBooked hres hmem
        rw [successesClaiming_eq_zero_of_allBooked rs _ hpost]
        simp [hmem]
    · have hcf : r.seatIDs.contains sid = false := by simpa using hc
      rw [hcf]
      simpa using ih _

/-! ## Row-function lemmas -/

theorem applyBookingStatus_id (bid : Nat) (st : String) (b : Booking) :
    (applyBookingStatus bid st b).id = b.id := by
  unfold applyBookingStatus
  split <;> rfl

theorem applyBookingStatus_userId (bid : Nat) (st : String) (b : Booking) :
    (applyBookingStatus bid st b).userId = b.userId := by
  unfold applyBookingStatus
  split <;> rfl

theorem applyTxnStatus_bookingId (pid : Nat) (st ext : String) (t : Transaction) :
    (applyTxnStatus pid st ext t).bookingId = t.bookingId := by
  unfold applyTxnStatus
  split <;> rfl

theorem applyTxnStatus_key (pid : Nat) (st ext : String) (t : Transaction) :
    txnKey (applyTxnStatus pid st ext t) = txnKey t := by
  unfold applyTxnStatus txnKey
  split <;> rfl

/-! ## Lemmas about the repository operations -/

theorem GetBookingByID_UpdateBookingStatus (db : DB) (bid : Nat) (st : String) :
    GetBookingByID (UpdateBookingStatus db bid st) bid =
      (GetBookingByID db bid).map (applyBookingStatus bid st) := by
  show (db.bookings.map (applyBookingStatus bid st)).find? (fun b => b.id == bid) = _
  rw [List.find?_map]
  have hp : ((fun b : Booking => b.id == bid) ∘ applyBookingStatus bid st) =
      fun b : Booking => b.id == bid := by
    funext b
    simp [Function.comp, applyBookingStatus_id]
  rw [hp]
  rfl

theorem bookingStatusIs_UpdateBookingStatus (db : DB) (bid : Nat) (st : String) :
    bookingStatusIs (UpdateBookingStatus db bid st) bid st := by
  intro b hb hid
  simp only [UpdateBookingStatus, List.mem_map] at hb
  obtain ⟨b0, hb0, rfl⟩ := hb
  unfold applyBookingStatus at hid ⊢
  by_cases hc : (b0.id == bid) = true
  · rw [if_pos hc]
  · rw [if_neg hc] at hid ⊢
    exact absurd (by simpa using hid) (by simpa using hc)

theorem seatsReleased_ReleaseSeatsByBookingID (d : DB) (bid : Nat) :
    seatsReleased (ReleaseSeatsByBookingID d bid) bid := by
  intro s hs hex
  simp only [ReleaseSeatsByBookingID, List.mem_map] at hs
  obtain ⟨s0, hs0, rfl⟩ := hs
  unfold applySeatRelease at hex ⊢
  by_cases hc : (d.bookingItems.any fun it => it.1 == bid && it.2 == s0.seatId) = true
  · rw [if_pos hc]
  · rw [if_neg hc] at hex ⊢
    exfalso
    obtain ⟨it, hit, h1, h2⟩ := hex
    exact hc (List.any_eq_true.mpr ⟨it, hit, by simp [h1, h2]⟩)

/-! ## Guard-by-guard characterization of ProcessPayment -/

theorem processPayment_invalid_method {db : DB} {now bid uid : Nat} {m : String}
    (h : methodCode m = none) :
    ProcessPayment db now bid uid m = ⟨db, .error .invalidPaymentMethod⟩ := by
  simp only [ProcessPayment, h]

theorem processPayment_not_found {db : DB} {now bid uid : Nat} {m c : String}
    (hm : methodCode m = some c) (hb : GetBookingByID db bid = none) :
    ProcessPayment db now bid uid m = ⟨db, .error .notFound⟩ := by
  simp only [ProcessPayment, hm, hb]

theorem processPayment_unauthorized {db : DB} {now bid uid : Nat} {m c : String}
    {b : Booking} (hm : methodCode m = some c)
    (hb : GetBookingByID db bid = some b) (hne : b.userId ≠ uid) :
    ProcessPayment db now bid uid m = ⟨db, .error .unauthorized⟩ := by
  simp only [ProcessPayment, hm, hb]
  rw [if_pos hne]

theorem processPayment_already_paid {db : DB} {now bid uid : Nat} {m c : String}
    {b : Booking} (hm : methodCode m = some c)
    (hb : GetBookingByID db bid = some b) (huid : b.userId = uid)
    (hst : b.status = "PAID") :
    ProcessPayment db now bid uid m = ⟨db, .error .paymentAlreadyMade⟩ := by
  simp only [ProcessPayment, hm, hb]
  rw [if_neg (by simp [huid]), if_pos (by rw [hst]; decide), if_pos hst]

theorem processPayment_not_pending {db : DB} {now bid uid : Nat} {m c : String}
    {b : Booking} (hm : methodCode m = some c)
    (hb : GetBookingByID db bid = some b) (huid : b.userId = uid)
    (h1 : b.status ≠ "PENDING") (h2 : b.status ≠ "PAID") :
    ProcessPayment db now bid uid m = ⟨db, .error .bookingNotPending⟩ := by
  simp only [ProcessPayment, hm, hb]
  rw [if_neg (by simp [huid]), if_pos h1, if_neg h2]

theorem processPayment_expired_eq {db : DB} {now bid uid : Nat} {m c : String}
    {b : Booking} {e : Nat} (hm : methodCode m = some c)
    (hb : GetBookingByID db bid = some b) (huid : b.userId = uid)
    (hst : b.status = "PENDING") (hexp : b.expiresAt = some e) (he : e < now) :
    ProcessPayment db now bid uid m =
      ⟨ReleaseSeatsByBookingID (UpdateBookingStatus db bid "EXPIRED") bid,
        .error .bookingExpired⟩ := by
  simp only [ProcessPayment, hm, hb]
  rw [if_neg (by simp [huid]), if_neg (by simp [hst]),
    if_pos (by rw [hexp]; simpa using he)]

theorem processPayment_expired_eq_bool {db : DB} {now bid uid : Nat} {m c : String}
    {b : Booking} (hm : methodCode m = some c)
    (hb : GetBookingByID db bid = some b) (huid : b.userId = uid)
    (hst : b.status = "PENDING")
    (hexpb : ((b.expiresAt.map fun e => decide (e < now)).getD false) = true) :
    ProcessPayment db now bid uid m =
      ⟨ReleaseSeatsByBookingID (UpdateBookingStatus db bid "EXPIRED") bid,
        .error .bookingExpired⟩ := by
  simp only [ProcessPayment, hm, hb]
  rw [if_neg (by simp [huid]), if_neg (by simp [hst]), if_pos hexpb]

theorem processPayment_txn_completed {db : DB} {now bid uid : Nat} {m c : String}
    {b : Booking} {t0 : Transaction} (hm : methodCode m = some c)
    (hb : GetBookingByID db bid = some b) (huid : b.userId = uid)
    (hst : b.status = "PENDING")
    (hnexp : ((b.expiresAt.map fun e => decide (e < now)).getD false) = false)
    (htx : GetTransactionByBookingID db bid = some t0)
    (hcomp : t0.status = "COMPLETED") :
    ProcessPayment db now bid uid m = ⟨db, .error .paymentAlreadyMade⟩ := by
  simp only [ProcessPayment, hm, hb, htx]
  rw [if_neg (by simp [huid]), if_neg (by simp [hst]),
    if_neg (by simp [hnexp]), if_pos hcomp]

/-! ## Lemmas about completed-transaction counts under settlement -/

theorem eq_of_mem_of_length_le_one {α : Type} {l : List α} (h : l.length ≤ 1)
    {x y : α} (hx : x ∈ l) (hy : y ∈ l) : x = y := by
  match l with
  | [] => cases hx
  | [a] =>
    simp only [List.mem_singleton] at hx hy
    rw [hx, hy]
  | a :: b :: rest => simp at h

theorem txn_eq_of_uniqueFor {db : DB} {bid : Nat} (huniq : TxnUniqueFor db bid)
    {t t0 : Transaction} (ht : t ∈ db.transactions) (hbid : t.bookingId = bid)
    (ht0 : t0 ∈ db.transactions) (hbid0 : t0.bookingId = bid) : t = t0 := by
  apply eq_of_mem_of_length_le_one huniq
  · exact List.mem_filter.mpr ⟨ht, by simp [hbid]⟩
  · exact List.mem_filter.mpr ⟨ht0, by simp [hbid0]⟩

theorem GetTransactionByBookingID_mem {db : DB} {bid : Nat} {t0 : Transaction}
    (h : GetTransactionByBookingID db bid = some t0) :
    t0 ∈ db.transactions ∧ t0.bookingId = bid := by
  refine ⟨List.mem_of_find?_eq_some h, ?_⟩
  have := List.find?_some h
  simpa using this

theorem completedCount_settle_existing {db : DB} {bid : Nat} {t0 : Transaction}
    (hfind : GetTransactionByBookingID db bid = some t0)
    (huniq : TxnUniqueFor db bid) (ext : String) :
    completedCount (UpdateTransactionStatus db t0.id "COMPLETED" ext) bid = 1 := by
  obtain ⟨hmem, hbid0⟩ := GetTransactionByBookingID_mem hfind
  have hcount : completedCount (UpdateTransactionStatus db t0.id "COMPLETED" ext) bid =
      db.transactions.countP (fun t => t.bookingId == bid) := by
    show (List.filter _ (db.transactions.map _)).length = _
    rw [← List.countP_eq_length_filter, List.countP_map]
    apply List.countP_congr
    intro t htmem
    simp only [Function.comp]
    by_cases hb : (t.bookingId == bid) = true
    · have ht0 : t = t0 := txn_eq_of_uniqueFor huniq htmem (by simpa using hb) hmem hbid0
      subst ht0
      simp only [hb, applyTxnStatus, applyTxnStatus_bookingId]
      rw [if_pos (by simp)]
      simp [by simpa using hb]
    · simp only [applyTxnStatus_bookingId]
      simp [hb]
  rw [hcount, List.countP_eq_length_filter]
  refine Nat.le_antisymm huniq ?_
  have : t0 ∈ db.transactions.filter (fun t => t.bookingId == bid) :=
    List.mem_filter.mpr ⟨hmem, by simp [hbid0]⟩
  exact List.length_pos_of_mem this

theorem completedCount_settle_created {db : DB} {bid : Nat}
    {tNew : Transaction} {ext : String}
    (hfind : GetTransactionByBookingID db bid = none)
    (hbid : tNew.bookingId = bid) :
    completedCount
      (UpdateTransactionStatus
        { db with transactions := db.transactions ++ [tNew],
                  nextPaymentId := db.nextPaymentId + 1 }
        tNew.id "COMPLETED" ext) bid = 1 := by
  have hnone : ∀ t ∈ db.transactions, ¬ (t.bookingId == bid) = true :=
    fun t ht => List.find?_eq_none.mp hfind t ht
  show (List.filter _ ((db.transactions ++ [tNew]).map _)).length = 1
  rw [← List.countP_eq_length_filter, List.map_append, List.countP_append]
  have hzero : (db.transactions.map (applyTxnStatus tNew.id "COMPLETED" ext)).countP
      (fun t : Transaction => t.bookingId == bid && t.status == "COMPLETED") = 0 := by
    rw [List.countP_map, List.countP_eq_zero]
    intro t ht
    simp only [Function.comp, applyTxnStatus_bookingId]
    simp [hnone t ht]
  rw [hzero]
  simp [applyTxnStatus, hbid]

/-! ## The two settlement branches of ProcessPayment -/

theorem processPayment_settle_existing {db : DB} {now bid uid : Nat} {m c : String}
    {b : Booking} {t0 : Transaction} (hm : methodCode m = some c)
    (hb : GetBookingByID db bid = some b) (huid : b.userId = uid)
    (hst : b.status = "PENDING")
    (hnexp : ((b.expiresAt.map fun e => decide (e < now)).getD false) = false)
    (htx : GetTransactionByBookingID db bid = some t0)
    (hncomp : t0.status ≠ "COMPLETED") :
    ProcessPayment db now bid uid m = settlePayment db now bid t0 m c := by
  simp only [ProcessPayment, hm, hb, htx]
  rw [if_neg (by simp [huid]), if_neg (by simp [hst]),
    if_neg (by simp [hnexp]), if_neg hncomp]

theorem processPayment_settle_created {db : DB} {now bid uid : Nat} {m c : String}
    {b : Booking} (hm : methodCode m = some c)
    (hb : GetBookingByID db bid = some b) (huid : b.userId = uid)
    (hst : b.status = "PENDING")
    (hnexp : ((b.expiresAt.map fun e => decide (e < now)).getD false) = false)
    (htx : GetTransactionByBookingID db bid = none) :
    ProcessPayment db now bid uid m =
      settlePayment
        { db with
            transactions := db.transactions ++
              [{ id := db.nextPaymentId, amount := b.totalAmount,
                 paymentMethod := m, bookingId := bid,
                 externalId := "TXN-" ++ toString bid ++ "-" ++ toString now,
                 status := "PENDING" }],
            nextPaymentId := db.nextPaymentId + 1 }
        now bid
        { id := db.nextPaymentId, amount := b.totalAmount,
          paymentMethod := m, bookingId := bid,
          externalId := "TXN-" ++ toString bid ++ "-" ++ toString now,
          status := "PENDING" }
        m c := by
  simp only [ProcessPayment, hm, hb, htx]
  rw [if_neg (by simp [huid]), if_neg (by simp [hst]), if_neg (by simp [hnexp])]
  simp only [CreateTransaction]

theorem GetBookingByID_UpdateTransactionStatus (db : DB) (pid : Nat)
    (st ext : String) (bid : Nat) :
    GetBookingByID (UpdateTransactionStatus db pid st ext) bid =
      GetBookingByID db bid := rfl

theorem completedCount_UpdateBookingStatus (db : DB) (bid2 : Nat) (st : String)
    (bid : Nat) :
    completedCount (UpdateBookingStatus db bid2 st) bid = completedCount db bid := rfl

/-! ## Row-level helper lemmas for the refund worker -/

theorem statusIs_map_applyBookingStatus_other {l : List Booking} {bid2 bid : Nat}
    (st2 : String) {st : String} (hne : bid2 ≠ bid)
    (h : ∀ b ∈ l, b.id = bid → b.status = st) :
    ∀ b ∈ l.map (applyBookingStatus bid2 st2), b.id = bid → b.status = st := by
  intro b hb hid
  obtain ⟨b0, hb0, rfl⟩ := List.mem_map.mp hb
  unfold applyBookingStatus at hid ⊢
  by_cases hc : (b0.id == bid2) = true
  · rw [if_pos hc] at hid ⊢
    exact absurd ((beq_iff_eq.mp hc).symm.trans hid) hne
  · rw [if_neg hc] at hid ⊢
    exact h b0 hb0 hid

theorem statusIs_map_applyTxnStatus_other {l : List Transaction} {pid2 : Nat}
    (st2 ext : String) {bid : Nat} {st : String}
    (hpw : l.Pairwise (fun a b => a.id ≠ b.id))
    {t2 : Transaction} (ht2mem : t2 ∈ l) (ht2bid : t2.bookingId ≠ bid)
    (ht2id : t2.id = pid2)
    (h : ∀ t ∈ l, t.bookingId = bid → t.status = st) :
    ∀ t ∈ l.map (applyTxnStatus pid2 st2 ext), t.bookingId = bid → t.status = st := by
  intro t ht hbidt
  obtain ⟨t0, ht0, rfl⟩ := List.mem_map.mp ht
  have hbid0 : t0.bookingId = bid := by
    rw [← applyTxnStatus_bookingId pid2 st2 ext t0]
    exact hbidt
  unfold applyTxnStatus
  by_cases hc : (t0.id == pid2) = true
  · exfalso
    have hne0 : t0 ≠ t2 := by
      intro he
      rw [he] at hbid0
      exact ht2bid hbid0
    have hsymm : Symmetric (fun a b : Transaction => a.id ≠ b.id) :=
      fun a b hh hba => hh hba.symm
    exact (List.Pairwise.forall hsymm hpw ht0 ht2mem hne0)
      ((beq_iff_eq.mp hc).trans ht2id.symm)
  · rw [if_neg hc]
    exact h t0 ht0 hbid0

theorem refunds_filter_append_other {l : List Refund} {r : Refund} {bid : Nat}
    (hne : r.bookingId ≠ bid) :
    (l ++ [r]).filter (fun x => x.bookingId == bid) =
      l.filter (fun x => x.bookingId == bid) := by
  rw [List.filter_append]
  simp [hne]

theorem released_map_applySeatRelease {seats : List Seat}
    {items : List (Nat × Nat)} (bid2 : Nat) {bid : Nat}
    (h : ∀ s ∈ seats, (∃ it ∈ items, it.1 = bid ∧ it.2 = s.seatId) →
      s.isBooked = false) :
    ∀ s ∈ seats.map (applySeatRelease items bid2),
      (∃ it ∈ items, it.1 = bid ∧ it.2 = s.seatId) → s.isBooked = false := by
  intro s hs hex
  obtain ⟨s0, hs0, rfl⟩ := List.mem_map.mp hs
  unfold applySeatRelease at hex ⊢
  by_cases hc : (items.any fun it => it.1 == bid2 && it.2 == s0.seatId) = true
  · rw [if_pos hc]
  · rw [if_neg hc] at hex ⊢
    exact h s0 hs0 hex

theorem txnKeys_map_applyTxnStatus (l : List Transaction) (pid : Nat)
    (st ext : String) :
    (l.map (applyTxnStatus pid st ext)).map txnKey = l.map txnKey := by
  rw [List.map_map]
  apply List.map_congr_left
  intro t _
  exact applyTxnStatus_key pid st ext t

/-! ## Step-level lemmas about processBookingRefund -/

theorem step_invariants (d : DB) (b2 : Booking) :
    (processBookingRefund d b2).users = d.users
    ∧ (processBookingRefund d b2).bookingItems = d.bookingItems
    ∧ txnKeys (processBookingRefund d b2) = txnKeys d := by
  cases hgu : GetUserByID d b2.userId with
  | none => simp only [processBookingRefund, hgu]; refine ⟨?_, ?_, ?_⟩ <;> trivial
  | some u =>
    simp only [processBookingRefund, hgu]
    by_cases hp : (b2.status == "PAID") = true
    · rw [if_pos hp]
      cases hft : GetTransactionByBookingID d b2.id with
      | some t2 =>
        refine ⟨rfl, rfl, ?_⟩
        show ((d.transactions.map (applyTxnStatus t2.id "REFUNDED" "")).map txnKey) = _
        exact txnKeys_map_applyTxnStatus d.transactions t2.id "REFUNDED" ""
      | none => refine ⟨?_, ?_, ?_⟩ <;> trivial
    · rw [if_neg hp]
      by_cases hq : (b2.status == "PENDING") = true
      · rw [if_pos hq]
        cases hft : GetTransactionByBookingID d b2.id with
        | some t2 =>
          refine ⟨rfl, rfl, ?_⟩
          show ((d.transactions.map (applyTxnStatus t2.id "CANCELLED" "")).map txnKey) = _
          exact txnKeys_map_applyTxnStatus d.transactions t2.id "CANCELLED" ""
        | none => refine ⟨?_, ?_, ?_⟩ <;> trivial
      · rw [if_neg hq]
        refine ⟨?_, ?_, ?_⟩ <;> trivial

theorem step_preserves (d : DB) (b2 : Booking) (bid : Nat)
    (hne : b2.id ≠ bid)
    (hpw : d.transactions.Pairwise (fun a b => a.id ≠ b.id)) :
    (∀ st, bookingStatusIs d bid st → bookingStatusIs (processBookingRefund d b2) bid st)
    ∧ (∀ st, txnStatusIs d bid st → txnStatusIs (processBookingRefund d b2) bid st)
    ∧ refundsFor (processBookingRefund d b2) bid = refundsFor d bid
    ∧ (seatsReleased d bid → seatsReleased (processBookingRefund d b2) bid) := by
  cases hgu : GetUserByID d b2.userId with
  | none =>
    simp only [processBookingRefund, hgu]
    exact ⟨fun st h => h, fun st h => h, by trivial, fun h => h⟩
  | some u =>
    simp only [processBookingRefund, hgu]
    by_cases hp : (b2.status == "PAID") = true
    · rw [if_pos hp]
      cases hft : GetTransactionByBookingID d b2.id with
      | some t2 =>
        obtain ⟨ht2mem, ht2bid⟩ := GetTransactionByBookingID_mem hft
        refine ⟨?_, ?_, ?_, ?_⟩
        · intro st h row hrow hid
          exact statusIs_map_applyBookingStatus_other "REFUNDED" hne h
            row (by exact hrow) hid
        · intro st h row hrow hbidr
          exact statusIs_map_applyTxnStatus_other "REFUNDED" ""
            hpw ht2mem (by rw [ht2bid]; exact hne) rfl h row (by exact hrow) hbidr
        · show (d.refunds ++
              [({ id := d.nextRefundId, bookingId := b2.id, amount := t2.amount,
                  reason := "Event cancelled by administrator",
                  status := "COMPLETED" } : Refund)]).filter
                (fun x => x.bookingId == bid) = _
          exact refunds_filter_append_other (by exact hne)
        · intro h row hrow hex
          exact released_map_applySeatRelease b2.id h row (by exact hrow) hex
      | none =>
        refine ⟨?_, ?_, by trivial, ?_⟩
        · intro st h row hrow hid
          exact statusIs_map_applyBookingStatus_other "REFUNDED" hne h
            row (by exact hrow) hid
        · intro st h
          exact h
        · intro h row hrow hex
          exact released_map_applySeatRelease b2.id h row (by exact hrow) hex
    · rw [if_neg hp]
      by_cases hq : (b2.status == "PENDING") = true
      · rw [if_pos hq]
        cases hft : GetTransactionByBookingID d b2.id with
        | some t2 =>
          obtain ⟨ht2mem, ht2bid⟩ := GetTransactionByBookingID_mem hft
          refine ⟨?_, ?_, by trivial, ?_⟩
          · intro st h row hrow hid
            exact statusIs_map_applyBookingStatus_other "CANCELLED" hne h
              row (by exact hrow) hid
          · intro st h row hrow hbidr
            exact statusIs_map_applyTxnStatus_other "CANCELLED" ""
              hpw ht2mem (by rw [ht2bid]; exact hne) rfl h row (by exact hrow) hbidr
          · intro h row hrow hex
            exact released_map_applySeatRelease b2.id h row (by exact hrow) hex
        | none =>
          refine ⟨?_, ?_, by trivial, ?_⟩
          · intro st h row hrow hid
            exact statusIs_map_applyBookingStatus_other "CANCELLED" hne h
              row (by exact hrow) hid
          · intro st h
            exact h
          · intro h row hrow hex
            exact released_map_applySeatRelease b2.id h row (by exact hrow) hex
      · rw [if_neg hq]
        exact ⟨fun st h => h, fun st h => h, by trivial, fun h => h⟩

theorem findTxn_key_transfer {d db : DB} (hk : txnKeys d = txnKeys db) (bid : Nat) :
    (GetTransactionByBookingID d bid).map txnKey =
      (GetTransactionByBookingID db bid).map txnKey := by
  have h1 : ∀ x : DB, (GetTransactionByBookingID x bid).map txnKey =
      (txnKeys x).find? (fun k => k.2.1 == bid) := by
    intro x
    rw [show txnKeys x = x.transactions.map txnKey from rfl, List.find?_map]
    rfl
  rw [h1, h1, hk]

theorem txnUniqueFor_transfer {d db : DB} (hk : txnKeys d = txnKeys db)
    {bid : Nat} (h : TxnUniqueFor db bid) : TxnUniqueFor d bid := by
  have hcount : ∀ x : DB,
      (x.transactions.filter (fun t => t.bookingId == bid)).length =
        (txnKeys x).countP (fun k => k.2.1 == bid) := by
    intro x
    rw [← List.countP_eq_length_filter,
      show txnKeys x = x.transactions.map txnKey from rfl, List.countP_map]
    rfl
  unfold TxnUniqueFor at h ⊢
  rw [hcount, hk, ← hcount]
  exact h

theorem pairwiseIds_transfer {d db : DB} (hk : txnKeys d = txnKeys db)
    (h : db.transactions.Pairwise (fun a b => a.id ≠ b.id)) :
    d.transactions.Pairwise (fun a b => a.id ≠ b.id) := by
  have h1 : (txnKeys db).Pairwise (fun k k' => k.1 ≠ k'.1) := by
    rw [show txnKeys db = db.transactions.map txnKey from rfl]
    exact (List.pairwise_map).mpr (by exact h)
  rw [← hk, show txnKeys d = d.transactions.map txnKey from rfl] at h1
  have h2 := List.pairwise_map.mp h1
  exact h2

theorem txnStatusIs_update_self {d : DB} {bid : Nat} {t2 : Transaction}
    (huniq : TxnUniqueFor d bid)
    (ht2 : GetTransactionByBookingID d bid = some t2) (st ext : String) :
    txnStatusIs (UpdateTransactionStatus d t2.id st ext) bid st := by
  intro row hrow hbidr
  obtain ⟨t0, ht0, rfl⟩ := List.mem_map.mp hrow
  have hb0 : t0.bookingId = bid := by
    rw [← applyTxnStatus_bookingId t2.id st ext t0]
    exact hbidr
  obtain ⟨ht2mem, ht2bid⟩ := GetTransactionByBookingID_mem ht2
  have ht02 : t0 = t2 := txn_eq_of_uniqueFor huniq ht0 hb0 ht2mem ht2bid
  subst ht02
  unfold applyTxnStatus
  rw [if_pos (by simp)]

theorem step_skip {db d : DB} {b : Booking} (husers : d.users = db.users)
    (hu : GetUserByID db b.userId = none) : processBookingRefund d b = d := by
  have hu' : GetUserByID d b.userId = none := by
    show d.users.find? _ = none
    rw [husers]
    exact hu
  simp only [processBookingRefund, hu']

theorem step_establish_paid {db d : DB} {b : Booking}
    (huniq : TxnUniqueFor db b.id)
    (husers : d.users = db.users)
    (hkeys : txnKeys d = txnKeys db)
    (hrz : refundsFor d b.id = [])
    (hu : GetUserByID db b.userId ≠ none)
    (hst : b.status = "PAID")
    (htxn : GetTransactionByBookingID db b.id ≠ none) :
    bookingStatusIs (processBookingRefund d b) b.id "REFUNDED"
    ∧ txnStatusIs (processBookingRefund d b) b.id "REFUNDED"
    ∧ (refundsFor (processBookingRefund d b) b.id).length = 1
    ∧ (∀ r ∈ refundsFor (processBookingRefund d b) b.id,
        ∃ t0, GetTransactionByBookingID db b.id = some t0 ∧ r.amount = t0.amount)
    ∧ seatsReleased (processBookingRefund d b) b.id := by
  have hu' : GetUserByID d b.userId ≠ none := by
    show d.users.find? _ ≠ none
    rw [husers]
    exact hu
  obtain ⟨u, hu2⟩ := Option.ne_none_iff_exists'.mp hu'
  have htx' : GetTransactionByBookingID d b.id ≠ none := by
    intro hcontra
    apply htxn
    have hkk := findTxn_key_transfer hkeys b.id
    rw [hcontra] at hkk
    cases hdb : GetTransactionByBookingID db b.id with
    | none => rfl
    | some t => rw [hdb] at hkk; cases hkk
  obtain ⟨t2, ht2⟩ := Option.ne_none_iff_exists'.mp htx'
  have hamt : ∃ t0, GetTransactionByBookingID db b.id = some t0 ∧
      t2.amount = t0.amount := by
    have hkk := findTxn_key_transfer hkeys b.id
    rw [ht2] at hkk
    cases hdb : GetTransactionByBookingID db b.id with
    | none => rw [hdb] at hkk; cases hkk
    | some t0 =>
      rw [hdb] at hkk
      refine ⟨t0, rfl, ?_⟩
      have hkeq : txnKey t2 = txnKey t0 := Option.some.inj hkk
      exact congrArg (fun k => k.2.2) hkeq
  have huniq' : TxnUniqueFor d b.id := txnUniqueFor_transfer hkeys huniq
  have hstep : processBookingRefund d b =
      ReleaseSeatsByBookingID (UpdateBookingStatus
        (CreateRefund (UpdateTransactionStatus d t2.id "REFUNDED" "") b.id t2.amount
          "Event cancelled by administrator") b.id "REFUNDED") b.id := by
    simp only [processBookingRefund, hu2, ht2]
    rw [if_pos (by simp [hst])]
  have hrefeq : refundsFor (processBookingRefund d b) b.id =
      [{ id := d.nextRefundId, bookingId := b.id, amount := t2.amount,
         reason := "Event cancelled by administrator", status := "COMPLETED" }] := by
    rw [hstep]
    show (d.refunds ++
        [({ id := d.nextRefundId, bookingId := b.id, amount := t2.amount,
            reason := "Event cancelled by administrator",
            status := "COMPLETED" } : Refund)]).filter (fun x => x.bookingId == b.id) = _
    rw [List.filter_append]
    unfold refundsFor at hrz
    rw [hrz]
    simp
  refine ⟨?_, ?_, ?_, ?_, ?_⟩
  · rw [hstep]
    intro row hrow hid
    exact bookingStatusIs_UpdateBookingStatus _ b.id "REFUNDED" row (by exact hrow) hid
  · rw [hstep]
    intro row hrow hbidr
    exact txnStatusIs_update_self huniq' ht2 "REFUNDED" "" row (by exact hrow) hbidr
  · rw [hrefeq]
    rfl
  · intro r hr
    rw [hrefeq] at hr
    simp only [List.mem_singleton] at hr
    obtain ⟨t0, h1, h2⟩ := hamt
    refine ⟨t0, h1, ?_⟩
    rw [hr]
    exact h2
  · rw [hstep]
    exact seatsReleased_ReleaseSeatsByBookingID _ b.id

theorem step_establish_pending {db d : DB} {b : Booking}
    (husers : d.users = db.users)
    (hu : GetUserByID db b.userId ≠ none)
    (hst : b.status = "PENDING") :
    bookingStatusIs (processBookingRefund d b) b.id "CANCELLED"
    ∧ seatsReleased (processBookingRefund d b) b.id := by
  have hu' : GetUserByID d b.userId ≠ none := by
    show d.users.find? _ ≠ none
    rw [husers]
    exact hu
  obtain ⟨u, hu2⟩ := Option.ne_none_iff_exists'.mp hu'
  cases hft : GetTransactionByBookingID d b.id with
  | some t2 =>
    have hstep : processBookingRefund d b =
        ReleaseSeatsByBookingID (UpdateBookingStatus
          (UpdateTransactionStatus d t2.id "CANCELLED" "") b.id "CANCELLED") b.id := by
      simp only [processBookingRefund, hu2, hft]
      rw [if_neg (by simp [hst]), if_pos (by simp [hst])]
    rw [hstep]
    exact ⟨fun row hrow hid =>
        bookingStatusIs_UpdateBookingStatus _ b.id "CANCELLED" row (by exact hrow) hid,
      seatsReleased_ReleaseSeatsByBookingID _ b.id⟩
  | none =>
    have hstep : processBookingRefund d b =
        ReleaseSeatsByBookingID (UpdateBookingStatus d b.id "CANCELLED") b.id := by
      simp only [processBookingRefund, hu2, hft]
      rw [if_neg (by simp [hst]), if_pos (by simp [hst])]
    rw [hstep]
    exact ⟨fun row hrow hid =>
        bookingStatusIs_UpdateBookingStatus _ b.id "CANCELLED" row (by exact hrow) hid,
      seatsReleased_ReleaseSeatsByBookingID _ b.id⟩

theorem booking_eq_of_pairwise {l : List Booking}
    (hpw : l.Pairwise (fun a b => a.id ≠ b.id)) {x y : Booking}
    (hx : x ∈ l) (hy : y ∈ l) (hid : x.id = y.id) : x = y := by
  by_cases he : x = y
  · exact he
  · have hsymm : Symmetric (fun a b : Booking => a.id ≠ b.id) :=
      fun a b hh hba => hh hba.symm
    exact absurd hid (List.Pairwise.forall hsymm hpw hx hy he)

/-! ## Fold lemmas for the refund batch -/

theorem foldl_refund_invariants :
    ∀ (l : List Booking) (d : DB),
      (l.foldl processBookingRefund d).users = d.users
      ∧ (l.foldl processBookingRefund d).bookingItems = d.bookingItems
      ∧ txnKeys (l.foldl processBookingRefund d) = txnKeys d := by
  intro l
  induction l with
  | nil => intro d; exact ⟨rfl, rfl, rfl⟩
  | cons b2 rest ih =>
    intro d
    obtain ⟨h1, h2, h3⟩ := step_invariants d b2
    obtain ⟨g1, g2, g3⟩ := ih (processBookingRefund d b2)
    exact ⟨g1.trans h1, g2.trans h2, g3.trans h3⟩

theorem foldl_refund_preserves {db : DB}
    (hpids : db.transactions.Pairwise (fun a b => a.id ≠ b.id)) :
    ∀ (l : List Booking) (d : DB) (bid : Nat),
      (∀ b2 ∈ l, b2.id ≠ bid) →
      txnKeys d = txnKeys db →
      (∀ st, bookingStatusIs d bid st →
        bookingStatusIs (l.foldl processBookingRefund d) bid st)
      ∧ (∀ st, txnStatusIs d bid st →
        txnStatusIs (l.foldl processBookingRefund d) bid st)
      ∧ refundsFor (l.foldl processBookingRefund d) bid = refundsFor d bid
      ∧ (seatsReleased d bid → seatsReleased (l.foldl processBookingRefund d) bid) := by
  intro l
  induction l with
  | nil =>
    intro d bid _ _
    exact ⟨fun st h => h, fun st h => h, rfl, fun h => h⟩
  | cons b2 rest ih =>
    intro d bid hne hkeys
    have hpw : d.transactions.Pairwise (fun a b => a.id ≠ b.id) :=
      pairwiseIds_transfer hkeys hpids
    obtain ⟨p1, p2, p3, p4⟩ :=
      step_preserves d b2 bid (hne b2 (List.mem_cons_self b2 rest)) hpw
    have hkeys1 : txnKeys (processBookingRefund d b2) = txnKeys db :=
      ((step_invariants d b2).2.2).trans hkeys
    obtain ⟨q1, q2, q3, q4⟩ := ih (processBookingRefund d b2) bid
      (fun b3 hb3 => hne b3 (List.mem_cons_of_mem b2 hb3)) hkeys1
    exact ⟨fun st h => q1 st (p1 st h), fun st h => q2 st (p2 st h),
      q3.trans p3, fun h => q4 (p4 h)⟩

theorem foldl_refund_main {db : DB}
    (hpids : db.transactions.Pairwise (fun a b => a.id ≠ b.id)) :
    ∀ (l : List Booking) (d : DB),
      l.Pairwise (fun a b => a.id ≠ b.id) →
      d.users = db.users →
      txnKeys d = txnKeys db →
      (∀ b ∈ l, TxnUniqueFor db b.id) →
      (∀ b ∈ l, refundsFor d b.id = []) →
      (∀ b ∈ l, bookingStatusIs d b.id b.status) →
      (∀ b ∈ l, b.status = "PAID" → GetTransactionByBookingID db b.id ≠ none) →
      ∀ b ∈ l,
        (GetUserByID db b.userId = none →
          bookingStatusIs (l.foldl processBookingRefund d) b.id b.status)
        ∧ (GetUserByID db b.userId ≠ none → b.status = "PAID" →
            bookingStatusIs (l.foldl processBookingRefund d) b.id "REFUNDED"
            ∧ txnStatusIs (l.foldl processBookingRefund d) b.id "REFUNDED"
            ∧ (refundsFor (l.foldl processBookingRefund d) b.id).length = 1
            ∧ (∀ r ∈ refundsFor (l.foldl processBookingRefund d) b.id,
                ∃ t0, GetTransactionByBookingID db b.id = some t0 ∧
                  r.amount = t0.amount)
            ∧ seatsReleased (l.foldl processBookingRefund d) b.id)
        ∧ (GetUserByID db b.userId ≠ none → b.status = "PENDING" →
            bookingStatusIs (l.foldl processBookingRefund d) b.id "CANCELLED"
            ∧ seatsReleased (l.foldl processBookingRefund d) b.id) := by
  intro l
  induction l with
  | nil =>
    intro d _ _ _ _ _ _ _ b hb
    exact absurd hb (List.not_mem_nil b)
  | cons bh rest ih =>
    intro d hpwl husers hkeys huniq hrz hbst htxn b hb
    simp only [List.foldl_cons]
    have hstepinv := step_invariants d bh
    have hkeys1 : txnKeys (processBookingRefund d bh) = txnKeys db :=
      (hstepinv.2.2).trans hkeys
    have husers1 : (processBookingRefund d bh).users = db.users :=
      (hstepinv.1).trans husers
    have hpw_d : d.transactions.Pairwise (fun a b => a.id ≠ b.id) :=
      pairwiseIds_transfer hkeys hpids
    have hhead : ∀ b3 ∈ rest, bh.id ≠ b3.id := (List.pairwise_cons.mp hpwl).1
    have hne_head : ∀ b3 ∈ rest, b3.id ≠ bh.id :=
      fun b3 hb3 he => hhead b3 hb3 he.symm
    rcases List.mem_cons.mp hb with rfl | hbrest
    · have hpres := foldl_refund_preserves hpids rest (processBookingRefund d b)
        b.id hne_head hkeys1
      by_cases hu : GetUserByID db b.userId = none
      · refine ⟨?_, fun hne => absurd hu hne, fun hne => absurd hu hne⟩
        intro _
        refine hpres.1 b.status ?_
        rw [step_skip husers hu]
        exact hbst b (List.mem_cons_self b rest)
      · refine ⟨fun h0 => absurd h0 hu, ?_, ?_⟩
        · intro _ hstP
          have hest := step_establish_paid (huniq b (List.mem_cons_self b rest))
            husers hkeys (hrz b (List.mem_cons_self b rest)) hu hstP
            (htxn b (List.mem_cons_self b rest) hstP)
          refine ⟨hpres.1 _ hest.1, hpres.2.1 _ hest.2.1, ?_, ?_,
            hpres.2.2.2 hest.2.2.2.2⟩
          · rw [hpres.2.2.1]
            exact hest.2.2.1
          · intro r hr
            rw [hpres.2.2.1] at hr
            exact hest.2.2.2.1 r hr
        · intro _ hstP
          have hest := step_establish_pending husers hu hstP
          exact ⟨hpres.1 _ hest.1, hpres.2.2.2 hest.2⟩
    · have hb_ne : bh.id ≠ b.id := hhead b hbrest
      refine ih (processBookingRefund d bh) (List.pairwise_cons.mp hpwl).2
        husers1 hkeys1
        (fun b3 hb3 => huniq b3 (List.mem_cons_of_mem bh hb3))
        ?_ ?_
        (fun b3 hb3 hp => htxn b3 (List.mem_cons_of_mem bh hb3) hp)
        b hbrest
      · intro b3 hb3
        obtain ⟨_, _, p3, _⟩ :=
          step_preserves d bh b3.id (fun he => hhead b3 hb3 he) hpw_d
        rw [p3]
        exact hrz b3 (List.mem_cons_of_mem bh hb3)
      · intro b3 hb3
        obtain ⟨p1, _, _, _⟩ :=
          step_preserves d bh b3.id (fun he => hhead b3 hb3 he) hpw_d
        exact p1 b3.status (hbst b3 (List.mem_cons_of_mem bh hb3))

/-- Claim C1: the per-seat claim step of CreateBooking (the conditional
UPDATE on `seats`) succeeds — affects a row — exactly when a seat row
with that id currently has `is_booked = false`; when it runs it leaves
every row of that seat id booked, and when it affects zero rows it is a
no-op on the table (which is what triggers the contention error).
Consequently, among any set of CreateBooking calls that include a given
seat — serialized in any order by the database — at most one call
succeeds in claiming that seat. -/
theorem c1_claim_step_cas_and_at_most_one_winner :
    (∀ (seats : List Seat) (sid : Nat),
        (lockSeatRowsAffected seats sid ≠ 0 ↔
          ∃ s ∈ seats, s.seatId = sid ∧ s.isBooked = false)
        ∧ allBooked (lockSeatExec seats sid) sid
        ∧ (lockSeatRowsAffected seats sid = 0 → lockSeatExec seats sid = seats))
    ∧ (∀ (db : DB) (reqs : List BookReq) (sid : Nat),
        successesClaiming db reqs sid ≤ 1) :=
  ⟨fun seats sid =>
    ⟨lockSeatRowsAffected_ne_zero_iff seats sid,
     allBooked_lockSeatExec_self seats sid,
     fun h => lockSeatExec_eq_self_of_zero h⟩,
   fun db reqs sid => successesClaiming_le_one sid reqs db⟩

/-- Closed instance of claim C1 at a concrete database: two racing
requests for seat 1 — successes claiming seat 1 number at most one, and
the claim step's compare-and-set characterization holds on the sample
seats. -/
theorem c1_witness :
    (lockSeatRowsAffected sampleDB.seats 1 ≠ 0 ↔
      ∃ s ∈ sampleDB.seats, s.seatId = 1 ∧ s.isBooked = false)
    ∧ successesClaiming sampleDB [⟨10, 5, 7, [1, 2]⟩, ⟨11, 6, 7, [1]⟩] 1 ≤ 1 :=
  ⟨(c1_claim_step_cas_and_at_most_one_winner.1 sampleDB.seats 1).1,
   c1_claim_step_cas_and_at_most_one_winner.2 sampleDB
     [⟨10, 5, 7, [1, 2]⟩, ⟨11, 6, 7, [1]⟩] 1⟩

/-- Claim C2: CreateBooking is all-or-nothing — when the requested seat
list contains a seat that is already booked, the call returns the
contention error and the committed database is exactly the one before
the call: no booking row, no booking_items row, and no seat claimed by
that call survives, because the whole transaction is rolled back. -/
theorem c2_CreateBooking_all_or_nothing (db : DB) (now u ev sid : Nat)
    (sids : List Nat) (hu : seatIdsUnique db.seats) (hmem : sid ∈ sids)
    (hbooked : ∃ s ∈ db.seats, s.seatId = sid ∧ s.isBooked = true) :
    CreateBooking db now u ev sids =
      (db, .error "seat not available or already booked") := by
  obtain ⟨s, hs, hid, hb⟩ := hbooked
  exact CreateBooking_eq_error_of_allBooked hmem
    (allBooked_of_unique_booked hu hs hid hb) now u ev

/-- Closed instance of claim C2: requesting seats 1 and 3 of the sample
database, where seat 3 is already booked, fails with the contention
error and leaves the database untouched. -/
theorem c2_witness :
    (seatIdsUnique sampleDB.seats ∧ 3 ∈ [1, 3]
      ∧ ∃ s ∈ sampleDB.seats, s.seatId = 3 ∧ s.isBooked = true)
    ∧ CreateBooking sampleDB 10 5 7 [1, 3] =
        (sampleDB, .error "seat not available or already booked") :=
  ⟨⟨by decide, by decide, by decide⟩,
   c2_CreateBooking_all_or_nothing sampleDB 10 5 7 3 [1, 3]
     (by decide) (by decide) (by decide)⟩

/-- Claim C10: a CreateBooking call whose seat-id list contains the
same seat more than once always fails with the contention error and
leaves all state unchanged: inside the transaction the first claim of
the duplicated seat marks it booked, so the second claim matches zero
rows and aborts the unit of work. -/
theorem c10_CreateBooking_duplicate_seat_fails (db : DB) (now u ev : Nat)
    (sids : List Nat) (hdup : ¬ sids.Nodup) :
    CreateBooking db now u ev sids =
      (db, .error "seat not available or already booked") := by
  have herr := @claimSeats_error_of_dup db.nextBookingId sids
    (bookingTx db now u ev) hdup
  simp only [CreateBooking, herr]

/-- Closed instance of claim C10: requesting seat 1 twice on the sample
database — where seat 1 is free — still fails with the contention error
and changes nothing. -/
theorem c10_witness :
    (¬ ([1, 1] : List Nat).Nodup)
    ∧ CreateBooking sampleDB 10 5 7 [1, 1] =
        (sampleDB, .error "seat not available or already booked") :=
  ⟨by decide,
   c10_CreateBooking_duplicate_seat_fails sampleDB 10 5 7 [1, 1] (by decide)⟩

/-- Claim C6: ProcessPayment evaluates its validation checks in exactly
the order method → booking existence → ownership → status → expiry,
each with its own distinct error; in particular an invalid method is
rejected even when the booking does not exist (the method check never
consults the database), a PAID booking gives PaymentAlreadyMade, any
other non-PENDING status gives BookingNotPending even when the stored
deadline has also passed (the status check precedes the expiry check,
so BookingExpired is never returned for a non-PENDING booking), and a
PENDING booking past its stored deadline gives BookingExpired. -/
theorem c6_ProcessPayment_check_order (db : DB) (now bid uid : Nat) (m : String)
    (b : Booking) (e : Nat) :
    (methodCode m = none →
      ProcessPayment db now bid uid m = ⟨db, .error .invalidPaymentMethod⟩)
    ∧ (methodCode m ≠ none → GetBookingByID db bid = none →
      ProcessPayment db now bid uid m = ⟨db, .error .notFound⟩)
    ∧ (methodCode m ≠ none → GetBookingByID db bid = some b → b.userId ≠ uid →
      ProcessPayment db now bid uid m = ⟨db, .error .unauthorized⟩)
    ∧ (methodCode m ≠ none → GetBookingByID db bid = some b → b.userId = uid →
      b.status = "PAID" →
      ProcessPayment db now bid uid m = ⟨db, .error .paymentAlreadyMade⟩)
    ∧ (methodCode m ≠ none → GetBookingByID db bid = some b → b.userId = uid →
      b.status ≠ "PENDING" → b.status ≠ "PAID" → b.expiresAt = some e →
      e < now →
      ProcessPayment db now bid uid m = ⟨db, .error .bookingNotPending⟩)
    ∧ (methodCode m ≠ none → GetBookingByID db bid = some b → b.userId = uid →
      b.status = "PENDING" → b.expiresAt = some e → e < now →
      (ProcessPayment db now bid uid m).out = .error .bookingExpired) := by
  refine ⟨?_, ?_, ?_, ?_, ?_, ?_⟩
  · intro h
    exact processPayment_invalid_method h
  · intro hm hb
    obtain ⟨c, hc⟩ := Option.ne_none_iff_exists'.mp hm
    exact processPayment_not_found hc hb
  · intro hm hb hne
    obtain ⟨c, hc⟩ := Option.ne_none_iff_exists'.mp hm
    exact processPayment_unauthorized hc hb hne
  · intro hm hb huid hst
    obtain ⟨c, hc⟩ := Option.ne_none_iff_exists'.mp hm
    exact processPayment_already_paid hc hb huid hst
  · intro hm hb huid h1 h2 _ _
    obtain ⟨c, hc⟩ := Option.ne_none_iff_exists'.mp hm
    exact processPayment_not_pending hc hb huid h1 h2
  · intro hm hb huid hst hexp he
    obtain ⟨c, hc⟩ := Option.ne_none_iff_exists'.mp hm
    rw [processPayment_expired_eq hc hb huid hst hexp he]

/-- Closed instance of claim C6: the six check outcomes on concrete
databases — invalid method on an existing booking, missing booking,
wrong user, PAID booking, EXPIRED-status booking whose deadline has
also passed, and a PENDING booking past its deadline. -/
theorem c6_witness :
    ProcessPayment samplePendingDB 20 100 5 "paypal" =
      ⟨samplePendingDB, .error .invalidPaymentMethod⟩
    ∧ ProcessPayment samplePendingDB 20 999 5 "credit_card" =
      ⟨samplePendingDB, .error .notFound⟩
    ∧ ProcessPayment samplePendingDB 20 100 6 "credit_card" =
      ⟨samplePendingDB, .error .unauthorized⟩
    ∧ ProcessPayment samplePaidDB 20 100 5 "credit_card" =
      ⟨samplePaidDB, .error .paymentAlreadyMade⟩
    ∧ ProcessPayment sampleExpiredDB 20 100 5 "credit_card" =
      ⟨sampleExpiredDB, .error .bookingNotPending⟩
    ∧ (ProcessPayment samplePendingDB 20 100 5 "credit_card").out =
      .error .bookingExpired :=
  ⟨(c6_ProcessPayment_check_order samplePendingDB 20 100 5 "paypal"
      ⟨100, 5, 7, "PENDING", some 500, some 15, 10⟩ 15).1 (by decide),
   (c6_ProcessPayment_check_order samplePendingDB 20 999 5 "credit_card"
      ⟨100, 5, 7, "PENDING", some 500, some 15, 10⟩ 15).2.1 (by decide) (by decide),
   (c6_ProcessPayment_check_order samplePendingDB 20 100 6 "credit_card"
      ⟨100, 5, 7, "PENDING", some 500, some 15, 10⟩ 15).2.2.1
      (by decide) (by decide) (by decide),
   (c6_ProcessPayment_check_order samplePaidDB 20 100 5 "credit_card"
      ⟨100, 5, 7, "PAID", some 500, some 15, 10⟩ 15).2.2.2.1
      (by decide) (by decide) (by decide) (by decide),
   (c6_ProcessPayment_check_order sampleExpiredDB 20 100 5 "credit_card"
      ⟨100, 5, 7, "EXPIRED", some 500, some 15, 10⟩ 15).2.2.2.2.1
      (by decide) (by decide) (by decide) (by decide) (by decide) (by decide)
      (by decide),
   (c6_ProcessPayment_check_order samplePendingDB 20 100 5 "credit_card"
      ⟨100, 5, 7, "PENDING", some 500, some 15, 10⟩ 15).2.2.2.2.2
      (by decide) (by decide) (by decide) (by decide) (by decide) (by decide)⟩

/-- Claim C4: calling ProcessPayment a second time on a booking whose
first call settled successfully — with any valid payment method,
whether or not it is the first call's — returns the PaymentAlreadyMade
error and mutates nothing, and the settled state holds exactly one
COMPLETED transaction for the booking; moreover the guard fires not
only on Booking.status = PAID but also, independently, on an existing
transaction with status COMPLETED. -/
theorem c4_ProcessPayment_idempotent (db : DB) (now now2 bid uid : Nat)
    (m m2 : String) (t : Transaction)
    (huniq : TxnUniqueFor db bid)
    (hm2 : methodCode m2 ≠ none)
    (hok : (ProcessPayment db now bid uid m).out = .ok t) :
    (ProcessPayment (ProcessPayment db now bid uid m).db now2 bid uid m2 =
      ⟨(ProcessPayment db now bid uid m).db, .error .paymentAlreadyMade⟩)
    ∧ completedCount (ProcessPayment db now bid uid m).db bid = 1
    ∧ (∀ (d : DB) (b2 : Booking) (t2 : Transaction),
        GetBookingByID d bid = some b2 → b2.userId = uid →
        b2.status = "PENDING" →
        ((b2.expiresAt.map fun e => decide (e < now2)).getD false) = false →
        GetTransactionByBookingID d bid = some t2 → t2.status = "COMPLETED" →
        ProcessPayment d now2 bid uid m2 = ⟨d, .error .paymentAlreadyMade⟩) := by
  obtain ⟨c2, hc2⟩ := Option.ne_none_iff_exists'.mp hm2
  have guard3 : ∀ (d : DB) (b2 : Booking) (t2 : Transaction),
      GetBookingByID d bid = some b2 → b2.userId = uid →
      b2.status = "PENDING" →
      ((b2.expiresAt.map fun e => decide (e < now2)).getD false) = false →
      GetTransactionByBookingID d bid = some t2 → t2.status = "COMPLETED" →
      ProcessPayment d now2 bid uid m2 = ⟨d, .error .paymentAlreadyMade⟩ :=
    fun d b2 t2 hb2 huid2 hst2 hnexp2 ht2 hcomp2 =>
      processPayment_txn_completed hc2 hb2 huid2 hst2 hnexp2 ht2 hcomp2
  cases hcm : methodCode m with
  | none =>
    rw [processPayment_invalid_method hcm] at hok
    simp at hok
  | some c =>
  cases hcb : GetBookingByID db bid with
  | none =>
    rw [processPayment_not_found hcm hcb] at hok
    simp at hok
  | some b =>
  by_cases huid : b.userId = uid
  case neg =>
    rw [processPayment_unauthorized hcm hcb huid] at hok
    simp at hok
  case pos =>
  by_cases hst : b.status = "PENDING"
  case neg =>
    by_cases hpaid : b.status = "PAID"
    · rw [processPayment_already_paid hcm hcb huid hpaid] at hok
      simp at hok
    · rw [processPayment_not_pending hcm hcb huid hst hpaid] at hok
      simp at hok
  case pos =>
  by_cases hexp : ((b.expiresAt.map fun e => decide (e < now)).getD false) = true
  case pos =>
    rw [processPayment_expired_eq_bool hcm hcb huid hst hexp] at hok
    simp at hok
  case neg =>
  have hnexp : ((b.expiresAt.map fun e => decide (e < now)).getD false) = false := by
    simpa using hexp
  have hbid' : (b.id == bid) = true := by simpa using List.find?_some hcb
  have hb'eq : applyBookingStatus bid "PAID" b = { b with status := "PAID" } := by
    unfold applyBookingStatus
    rw [if_pos hbid']
  cases hct : GetTransactionByBookingID db bid with
  | some t0 =>
    by_cases hcomp : t0.status = "COMPLETED"
    · rw [processPayment_txn_completed hcm hcb huid hst hnexp hct hcomp] at hok
      simp at hok
    · rw [processPayment_settle_existing hcm hcb huid hst hnexp hct hcomp]
      simp only [settlePayment]
      refine ⟨?_, ?_, guard3⟩
      · have hfind2 : GetBookingByID
            (UpdateBookingStatus
              (UpdateTransactionStatus db t0.id "COMPLETED"
                ("PAY-" ++ c ++ "-" ++ toString bid ++ "-" ++ toString now))
              bid "PAID") bid = some { b with status := "PAID" } := by
          rw [GetBookingByID_UpdateBookingStatus,
            GetBookingByID_UpdateTransactionStatus, hcb]
          show some (applyBookingStatus bid "PAID" b) = _
          rw [hb'eq]
        exact processPayment_already_paid hc2 hfind2 (by simpa using huid) rfl
      · rw [completedCount_UpdateBookingStatus]
        exact completedCount_settle_existing hct huniq _
  | none =>
    rw [processPayment_settle_created hcm hcb huid hst hnexp hct]
    simp only [settlePayment]
    refine ⟨?_, ?_, guard3⟩
    · have hfind2 : GetBookingByID
          (UpdateBookingStatus
            (UpdateTransactionStatus
              { db with
                  transactions := db.transactions ++
                    [{ id := db.nextPaymentId, amount := b.totalAmount,
                       paymentMethod := m, bookingId := bid,
                       externalId := "TXN-" ++ toString bid ++ "-" ++ toString now,
                       status := "PENDING" }],
                  nextPaymentId := db.nextPaymentId + 1 }
              db.nextPaymentId "COMPLETED"
              ("PAY-" ++ c ++ "-" ++ toString bid ++ "-" ++ toString now))
            bid "PAID") bid = some { b with status := "PAID" } := by
        rw [GetBookingByID_UpdateBookingStatus,
          GetBookingByID_UpdateTransactionStatus]
        show (GetBookingByID db bid).map _ = _
        rw [hcb]
        show some (applyBookingStatus bid "PAID" b) = _
        rw [hb'eq]
      exact processPayment_already_paid hc2 hfind2 (by simpa using huid) rfl
    · rw [completedCount_UpdateBookingStatus]
      exact completedCount_settle_created hct rfl

/-- Closed instance of claim C4: after the settling payment on the
sample active database, a second call with a different valid method
fails with PaymentAlreadyMade and changes nothing, exactly one
COMPLETED transaction remains, and on a database whose booking is still
PENDING but whose transaction is COMPLETED the transaction-level guard
fires by itself. -/
theorem c4_witness :
    (TxnUniqueFor sampleActiveDB 100
      ∧ (ProcessPayment sampleActiveDB 20 100 5 "credit_card").out =
          .ok ⟨200, some 500, "credit_card", 100, "PAY-CR-100-20", "COMPLETED"⟩)
    ∧ ProcessPayment (ProcessPayment sampleActiveDB 20 100 5 "credit_card").db
        30 100 5 "e_wallet" =
        ⟨(ProcessPayment sampleActiveDB 20 100 5 "credit_card").db,
          .error .paymentAlreadyMade⟩
    ∧ completedCount (ProcessPayment sampleActiveDB 20 100 5 "credit_card").db 100 = 1
    ∧ ProcessPayment sampleGuardDB 30 100 5 "e_wallet" =
        ⟨sampleGuardDB, .error .paymentAlreadyMade⟩ := by
  have h := c4_ProcessPayment_idempotent sampleActiveDB 20 30 100 5
    "credit_card" "e_wallet" ⟨200, some 500, "credit_card", 100, "PAY-CR-100-20", "COMPLETED"⟩
    (by decide) (by decide) (by rfl)
  exact ⟨⟨by decide, by rfl⟩, h.1, h.2.1,
    h.2.2 sampleGuardDB ⟨100, 5, 7, "PENDING", some 500, none, 10⟩
      ⟨200, some 500, "credit_card", 100, "PAY-CR-100-12", "COMPLETED"⟩
      (by decide) (by decide) (by decide) (by decide) (by decide) (by decide)⟩

/-- Claim C7 (failing-input evaluation): a successful CreateBooking —
here user 5 booking free seats 1 and 2 of the sample database at time
10 — persists the booking with status PENDING but with `expires_at`
NULL: the INSERT lists only (user_id, event_id, status, created_at), so
no committed booking ever stores the 15-minute payment deadline the
specification prescribes, and the deadline returned to the client is
computed only in memory. -/
theorem c7_expires_at_not_persisted :
    (CreateBooking sampleDB 10 5 7 [1, 2]).2 = .ok 100
    ∧ bookingStatusIs (CreateBooking sampleDB 10 5 7 [1, 2]).1 100 "PENDING"
    ∧ (∀ b ∈ (CreateBooking sampleDB 10 5 7 [1, 2]).1.bookings,
        b.expiresAt = none) :=
  ⟨rfl, by decide, by decide⟩

/-- Claim C8 counterexample: CancelEvent on an event already in the
terminal COMPLETED state overwrites it to CANCELLED — the repository's
UPDATE is unconditional, so terminal states are not immutable. -/
theorem c8_counterexample :
    CancelEvent [⟨1, "COMPLETED"⟩] 1 = [⟨1, "CANCELLED"⟩]
    ∧ ("CANCELLED" : String) ≠ "COMPLETED" := by decide

/-- Claim C8 (amended): the only status any operation ever writes is
CANCELLED — CancelEvent, the sole caller of UpdateEventStatus, passes
the literal 'CANCELLED' and the UPDATE is unconditional. Hence after
any sequence of CancelEvent calls every event row either still is an
original row or carries status CANCELLED (in particular no operation
performs AVAILABLE→COMPLETED), and CANCELLED is absorbing; but a
COMPLETED event is not immutable: CancelEvent moves it to CANCELLED. -/
theorem c8_event_status_only_cancelled :
    ∀ (events : List Event) (eids : List Nat),
      (∀ e' ∈ runCancelEvents events eids,
        e'.status = "CANCELLED" ∨ e' ∈ events)
      ∧ (∀ tid : Nat,
          (∀ e ∈ events, e.id = tid → e.status = "CANCELLED") →
          ∀ e' ∈ runCancelEvents events eids, e'.id = tid →
            e'.status = "CANCELLED") := by
  intro events eids
  induction eids generalizing events with
  | nil =>
    refine ⟨fun e' he' => Or.inr he', fun tid h e' he' hid => h e' he' hid⟩
  | cons eid rest ih =>
    constructor
    · intro e' he'
      rcases (ih (CancelEvent events eid)).1 e' he' with h | h
      · exact Or.inl h
      · simp only [CancelEvent, UpdateEventStatus, List.mem_map] at h
        obtain ⟨e0, he0, rfl⟩ := h
        by_cases hc : (e0.id == eid) = true
        · rw [if_pos hc]
          exact Or.inl rfl
        · rw [if_neg hc]
          exact Or.inr he0
    · intro tid h e' he' hid
      refine (ih (CancelEvent events eid)).2 tid ?_ e' he' hid
      intro e he hidt
      simp only [CancelEvent, UpdateEventStatus, List.mem_map] at he
      obtain ⟨e0, he0, rfl⟩ := he
      by_cases hc : (e0.id == eid) = true
      · rw [if_pos hc]
      · rw [if_neg hc] at hidt ⊢
        exact h e0 he0 hidt

/-- Closed instance of the amended claim C8: one available and one
cancelled event; after cancelling events 1 and 2 twice over, every row
is either an original row or CANCELLED, and the already-CANCELLED
event 2 stays CANCELLED. -/
theorem c8_witness :
    (∀ e' ∈ runCancelEvents [⟨1, "AVAILABLE"⟩, ⟨2, "CANCELLED"⟩] [1, 2, 1],
      e'.status = "CANCELLED" ∨ e' ∈ [⟨1, "AVAILABLE"⟩, ⟨2, "CANCELLED"⟩])
    ∧ (∀ e' ∈ runCancelEvents [⟨1, "AVAILABLE"⟩, ⟨2, "CANCELLED"⟩] [1, 2, 1],
        e'.id = 2 → e'.status = "CANCELLED") :=
  ⟨(c8_event_status_only_cancelled [⟨1, "AVAILABLE"⟩, ⟨2, "CANCELLED"⟩] [1, 2, 1]).1,
   (c8_event_status_only_cancelled [⟨1, "AVAILABLE"⟩, ⟨2, "CANCELLED"⟩] [1, 2, 1]).2
     2 (by decide)⟩

/-- Claim C5: after the cancellation job for an event completes, every
booking of that event that was PAID has status REFUNDED, all its
transaction rows marked REFUNDED, exactly one Refund record whose
amount equals the original transaction amount, and its seats released;
every booking that was PENDING has status CANCELLED with its seats
released; and a booking whose user record cannot be resolved is skipped
— its status is untouched — without aborting the processing of the
remaining bookings (the guarantees above hold for every other booking
of the batch regardless). Hypotheses: primary keys are unique, the
booking had no refund yet, and every PAID booking has a transaction
row (the reservation path always creates one). -/
theorem c5_refund_completeness (db : DB) (ev : Nat)
    (hbids : db.bookings.Pairwise (fun a b => a.id ≠ b.id))
    (hpids : db.transactions.Pairwise (fun a b => a.id ≠ b.id))
    (huniq : ∀ b ∈ GetBookingsByEventID db ev, TxnUniqueFor db b.id)
    (hnoref : ∀ b ∈ GetBookingsByEventID db ev, refundsFor db b.id = [])
    (htxn : ∀ b ∈ GetBookingsByEventID db ev, b.status = "PAID" →
      GetTransactionByBookingID db b.id ≠ none) :
    ∀ b ∈ GetBookingsByEventID db ev,
      (GetUserByID db b.userId = none →
        bookingStatusIs (processEventRefund db ev) b.id b.status)
      ∧ (GetUserByID db b.userId ≠ none → b.status = "PAID" →
          bookingStatusIs (processEventRefund db ev) b.id "REFUNDED"
          ∧ txnStatusIs (processEventRefund db ev) b.id "REFUNDED"
          ∧ (refundsFor (processEventRefund db ev) b.id).length = 1
          ∧ (∀ r ∈ refundsFor (processEventRefund db ev) b.id,
              ∃ t0, GetTransactionByBookingID db b.id = some t0 ∧
                r.amount = t0.amount)
          ∧ seatsReleased (processEventRefund db ev) b.id)
      ∧ (GetUserByID db b.userId ≠ none → b.status = "PENDING" →
          bookingStatusIs (processEventRefund db ev) b.id "CANCELLED"
          ∧ seatsReleased (processEventRefund db ev) b.id) := by
  have hpwl : (GetBookingsByEventID db ev).Pairwise (fun a b => a.id ≠ b.id) :=
    List.Pairwise.filter _ hbids
  have hbst : ∀ b ∈ GetBookingsByEventID db ev,
      bookingStatusIs db b.id b.status := by
    intro b hbmem row hrow hid
    have hb2 : b ∈ db.bookings := List.mem_of_mem_filter hbmem
    rw [booking_eq_of_pairwise hbids hrow hb2 hid]
  exact foldl_refund_main hpids (GetBookingsByEventID db ev) db hpwl rfl rfl
    huniq hnoref hbst htxn

/-- Closed instance of claim C5 on the sample refund database: the PAID
booking 100 ends REFUNDED with its transaction REFUNDED, one matching
refund record and its seats free; the PENDING booking 101 ends
CANCELLED with its seat free; the PAID booking 102, whose user cannot
be resolved, keeps its status — while 100 and 101 were still
processed. -/
theorem c5_witness :
    bookingStatusIs (processEventRefund sampleRefundDB 7) 100 "REFUNDED"
    ∧ txnStatusIs (processEventRefund sampleRefundDB 7) 100 "REFUNDED"
    ∧ (refundsFor (processEventRefund sampleRefundDB 7) 100).length = 1
    ∧ (∀ r ∈ refundsFor (processEventRefund sampleRefundDB 7) 100,
        ∃ t0, GetTransactionByBookingID sampleRefundDB 100 = some t0 ∧
          r.amount = t0.amount)
    ∧ seatsReleased (processEventRefund sampleRefundDB 7) 100
    ∧ bookingStatusIs (processEventRefund sampleRefundDB 7) 101 "CANCELLED"
    ∧ seatsReleased (processEventRefund sampleRefundDB 7) 101
    ∧ bookingStatusIs (processEventRefund sampleRefundDB 7) 102 "PAID" := by
  have h := c5_refund_completeness sampleRefundDB 7 (by decide) (by decide)
    (by decide) (by decide) (by decide)
  have h100 := h ⟨100, 5, 7, "PAID", some 500, none, 10⟩ (by decide)
  have h101 := h ⟨101, 6, 7, "PENDING", some 200, none, 11⟩ (by decide)
  have h102 := h ⟨102, 99, 7, "PAID", some 300, none, 12⟩ (by decide)
  obtain ⟨f1, f2, f3, f4, f5⟩ := h100.2.1 (by decide) (by decide)
  obtain ⟨g1, g2⟩ := h101.2.2 (by decide) (by decide)
  exact ⟨f1, f2, f3, f4, f5, g1, g2, h102.1 (by decide)⟩

/-- Claim C3: for a PENDING booking whose stored `expires_at` has
passed, ProcessPayment never settles: it returns the BookingExpired
error, marks every booking row of that id EXPIRED, and releases all the
booking's seats. (The branch requires the stored ExpiresAt pointer to
be non-nil, which is what the `b.expiresAt = some e` hypothesis
expresses; the booking INSERT itself never writes `expires_at`.) -/
theorem c3_ProcessPayment_expiry_authoritative (db : DB) (now bid uid : Nat)
    (m : String) (b : Booking) (e : Nat)
    (hm : methodCode m ≠ none)
    (hb : GetBookingByID db bid = some b)
    (huid : b.userId = uid)
    (hst : b.status = "PENDING")
    (hexp : b.expiresAt = some e)
    (he : e < now) :
    (ProcessPayment db now bid uid m).out = .error .bookingExpired
    ∧ bookingStatusIs (ProcessPayment db now bid uid m).db bid "EXPIRED"
    ∧ seatsReleased (ProcessPayment db now bid uid m).db bid := by
  obtain ⟨c, hc⟩ := Option.ne_none_iff_exists'.mp hm
  rw [processPayment_expired_eq hc hb huid hst hexp he]
  refine ⟨rfl, ?_, ?_⟩
  · intro b' hb' hid
    exact bookingStatusIs_UpdateBookingStatus db bid "EXPIRED" b' hb' hid
  · exact seatsReleased_ReleaseSeatsByBookingID _ bid

/-- Closed instance of claim C3: paying for booking 100 of the sample
pending database at time 20, past its stored deadline 15, returns
BookingExpired, leaves the booking EXPIRED and both its seats free. -/
theorem c3_witness :
    ((⟨100, 5, 7, "PENDING", some 500, some 15, 10⟩ : Booking).status = "PENDING"
      ∧ (15 : Nat) < 20)
    ∧ (ProcessPayment samplePendingDB 20 100 5 "credit_card").out =
        .error .bookingExpired
    ∧ bookingStatusIs (ProcessPayment samplePendingDB 20 100 5 "credit_card").db
        100 "EXPIRED"
    ∧ seatsReleased (ProcessPayment samplePendingDB 20 100 5 "credit_card").db 100 :=
  ⟨⟨by decide, by decide⟩,
   c3_ProcessPayment_expiry_authoritative samplePendingDB 20 100 5 "credit_card"
     ⟨100, 5, 7, "PENDING", some 500, some 15, 10⟩ 15
     (by decide) (by decide) (by decide) (by decide) (by decide) (by decide)⟩

end TicRes
